import Mathlib

/-!
# Verification of the SMASH core against its specification

Shallow embedding of the particle store (`src/include/particles.h`), the
timestep action pipeline (`Experiment::run_time_evolution`) and the
scatter-action resolution state machine (`src/scatteraction.cc`).

Times, formation data and cross-section weights are embedded as rationals
(the source uses `double`; the claims under study depend only on the ordered
field structure, and rationals keep every branch decidable and executable).
Momenta, positions and masses are embedded as real numbers because the
kinematics involves square roots.
-/

/-! ## Three- and four-vectors (threevector.h / fourvector.h are not in src;
their operations are standard and modelled from the spec where needed). -/

/-- A spatial 3-vector with real components. -/
structure ThreeVector where
  x1 : ℝ
  x2 : ℝ
  x3 : ℝ

/-- Componentwise sum of two 3-vectors. -/
def ThreeVector.add (a b : ThreeVector) : ThreeVector :=
  ⟨a.x1 + b.x1, a.x2 + b.x2, a.x3 + b.x3⟩

/-- Scalar multiple of a 3-vector. -/
def ThreeVector.smul (c : ℝ) (a : ThreeVector) : ThreeVector :=
  ⟨c * a.x1, c * a.x2, c * a.x3⟩

/-- Negation of a 3-vector. -/
def ThreeVector.neg (a : ThreeVector) : ThreeVector :=
  ⟨-a.x1, -a.x2, -a.x3⟩

/-- Euclidean inner product of two 3-vectors. -/
def ThreeVector.dot (a b : ThreeVector) : ℝ :=
  a.x1 * b.x1 + a.x2 * b.x2 + a.x3 * b.x3

/-- Squared Euclidean norm (`ThreeVector::sqr` in the source). -/
def ThreeVector.sqr (a : ThreeVector) : ℝ := a.dot a

/-- The zero 3-vector. -/
def ThreeVector.zero : ThreeVector := ⟨0, 0, 0⟩

/-- A Minkowski 4-vector with real components, `x0` the time component. -/
structure FourVector where
  x0 : ℝ
  x1 : ℝ
  x2 : ℝ
  x3 : ℝ

/-- Componentwise sum of two 4-vectors. -/
def FourVector.add (a b : FourVector) : FourVector :=
  ⟨a.x0 + b.x0, a.x1 + b.x1, a.x2 + b.x2, a.x3 + b.x3⟩

/-- The zero 4-vector. -/
def FourVector.zero : FourVector := ⟨0, 0, 0, 0⟩

/-- Spatial part of a 4-vector (`FourVector::threevec`). -/
def FourVector.threevec (p : FourVector) : ThreeVector :=
  ⟨p.x1, p.x2, p.x3⟩

/-- Minkowski square `p.p = x0^2 - |threevec|^2` (`FourVector::sqr`). -/
def FourVector.sqr (p : FourVector) : ℝ :=
  p.x0 ^ 2 - p.x1 ^ 2 - p.x2 ^ 2 - p.x3 ^ 2

/-- Invariant norm `sqrt(p.p)` (`FourVector::abs`). -/
noncomputable def FourVector.abs (p : FourVector) : ℝ :=
  Real.sqrt p.sqr

/-- Velocity 3-vector `threevec / x0` (`FourVector::velocity`). -/
noncomputable def FourVector.velocity (p : FourVector) : ThreeVector :=
  ThreeVector.smul (1 / p.x0) p.threevec

open Classical in
/-- Lorentz boost of a 4-vector into the frame moving with velocity `v`
(`FourVector::LorentzBoost`; fourvector.h is not in src, the standard boost
with the source's gamma guard `v^2 < 1` is used): the energy becomes
`gamma (x0 - v.p)` and the spatial part gains
`gamma (gamma (v.p) / (gamma + 1) - x0) v`. -/
noncomputable def FourVector.lorentzBoost (p : FourVector) (v : ThreeVector) :
    FourVector :=
  let vsqr : ℝ := v.sqr
  let gamma : ℝ := if vsqr < 1 then 1 / Real.sqrt (1 - vsqr) else 0
  let vp : ℝ := v.dot p.threevec
  let c : ℝ := gamma * (vp * gamma / (gamma + 1) - p.x0)
  ⟨gamma * (p.x0 - vp), p.x1 + c * v.x1, p.x2 + c * v.x2, p.x3 + c * v.x3⟩

/-! ## Particle types and particle records.

`particletype.h` is in src: a type carries a name, a mass, a width and a PDG
code; only the mass matters to the claims under study (`effective_mass`).
`particledata.h` is not in src; the record layout below follows the spec's
data model: identity, type reference, 4-momentum, 4-position, formation-time
interval, cross-section scaling factor and the creating-action identifier,
plus the storage-slot index and hole flag used by the `Particles` arena. -/

/-- Immutable particle-type descriptor (src `particletype.h`, reduced to the
fields the claims touch). -/
structure ParticleType where
  mass : ℝ

/-- A particle record / handle copy.  `id` is the identity, `id_process` the
creating-action identifier; together they form the generation token.  `index`
is the storage-slot index of the copy; `hole` marks a logically empty slot. -/
structure ParticleData where
  id : Int
  id_process : Int
  index : Nat
  hole : Bool
  type : ParticleType
  momentum : FourVector
  position : FourVector
  formation_time : ℚ
  begin_formation_time : ℚ
  xsec_scaling_factor : ℚ
  initial_xsec_scaling_factor : ℚ

/-- Modelled from the spec: `ParticleData::effective_mass` (particledata.h is
not in src) returns the particle's mass from its type descriptor. -/
def ParticleData.effective_mass (p : ParticleData) : ℝ := p.type.mass

/-- Modelled from the spec: `ParticleData::set_4momentum(mass, threevec)`
(particledata.h is not in src) stores the 4-momentum with energy
`sqrt(mass^2 + |threevec|^2)`. -/
noncomputable def ParticleData.set_4momentum (p : ParticleData) (mass : ℝ)
    (mom : ThreeVector) : ParticleData :=
  { p with momentum := ⟨Real.sqrt (mass ^ 2 + mom.sqr), mom.x1, mom.x2, mom.x3⟩ }

/-- Modelled from the spec: `ParticleData::boost_momentum` (particledata.h is
not in src) applies a Lorentz boost to the stored 4-momentum only. -/
noncomputable def ParticleData.boost_momentum (p : ParticleData)
    (v : ThreeVector) : ParticleData :=
  { p with momentum := p.momentum.lorentzBoost v }

/-- Modelled from the spec: `ParticleData::set_4position` (particledata.h is
not in src). -/
def ParticleData.set_4position (p : ParticleData) (pos : FourVector) :
    ParticleData :=
  { p with position := pos }

/-- Modelled from the spec: `ParticleData::set_formation_time`
(particledata.h is not in src) sets the formation time of a fully formed
particle. -/
def ParticleData.set_formation_time (p : ParticleData) (t : ℚ) : ParticleData :=
  { p with formation_time := t }

/-- Modelled from the spec: `ParticleData::set_slow_formation_times`
(particledata.h is not in src) sets the formation-interval start time and the
formation time of a still-forming particle. -/
def ParticleData.set_slow_formation_times (p : ParticleData)
    (begin_time t : ℚ) : ParticleData :=
  { p with begin_formation_time := begin_time, formation_time := t }

/-- Modelled from the spec: `ParticleData::set_cross_section_scaling_factor`
(particledata.h is not in src). -/
def ParticleData.set_cross_section_scaling_factor (p : ParticleData) (f : ℚ) :
    ParticleData :=
  { p with xsec_scaling_factor := f }

/-- Replace only the stored 4-momentum of a record (used to state
"equal up to momentum resampling"). -/
def ParticleData.with_momentum (p : ParticleData) (m : FourVector) :
    ParticleData :=
  { p with momentum := m }

/-- Erase the 4-momentum of a record.  Two records are copies of one another
up to momentum resampling exactly when their erasures coincide. -/
def ParticleData.momentum_erased (p : ParticleData) : ParticleData :=
  { p with momentum := FourVector.zero }

/-! ## The particle store (src `particles.h`).

The growable slab `data_` with used range `data_size_` is embedded as a list
whose length is `data_size_`; capacity management has no observable effect on
the claims.  `dirty_` is the hole-reuse list. -/

/-- The particle store: slots, the highest assigned identity, and the list of
hole indexes available for reuse. -/
structure Particles where
  data : List ParticleData
  id_max : Int
  dirty : List Nat

/-- Source `Particles::is_valid` (src `particles.h` lines 105-117): a copy is valid
iff its slot index is inside the used range and the slot still holds the same
identity and the same creating-action identifier. -/
def Particles.is_valid (P : Particles) (copy : ParticleData) : Bool :=
  if P.data.length ≤ copy.index then
    false
  else
    let d := P.data.getD copy.index copy
    d.id == copy.id && d.id_process == copy.id_process

/-- Index of the slot a fresh insertion will use.  Modelled from the spec:
"inserting reuses the lowest-index hole if one exists, else grows capacity"
(particles.cc is not in src). -/
def Particles.insert_index (P : Particles) : Nat :=
  match P.dirty with
  | [] => P.data.length
  | h :: t => t.foldl Nat.min h

/-- Modelled from the spec: `Particles::insert` / `Particles::copy_in`
(particles.cc is not in src; the header documents that the stored copy's id
is set to the next id for a new particle, the other data copied from the
argument, and the slot's index kept).  Reuses the lowest-index hole when one
exists, otherwise appends a slot. -/
def Particles.insert (P : Particles) (p : ParticleData) : Particles :=
  let j := P.insert_index
  let stored : ParticleData :=
    { p with id := P.id_max + 1, index := j, hole := false }
  match P.dirty with
  | [] =>
      { data := P.data ++ [stored], id_max := P.id_max + 1, dirty := [] }
  | _ :: _ =>
      { data := P.data.set j stored, id_max := P.id_max + 1,
        dirty := P.dirty.filter (fun k => k ≠ j) }

/-- Modelled from the spec: `Particles::remove` (particles.cc is not in src;
the header enforces validity of the argument only in DEBUG builds, so the
release semantics marks the slot unconditionally).  The slot is published as
a hole and its generation token destroyed (identity set to the sentinel -1,
which no live handle carries), realizing the spec's "removing a slot ...
invalidates any handle pointing at it going forward". -/
def Particles.remove (P : Particles) (p : ParticleData) : Particles :=
  if p.index < P.data.length then
    { data := P.data.modify (fun d => { d with id := -1, hole := true }) p.index,
      id_max := P.id_max,
      dirty := P.dirty ++ [p.index] }
  else
    P

/-- Modelled from the spec: `Particles::replace` (particles.cc is not in src;
the header and spec describe it as the bulk removal of `to_remove` followed by
the insertion of `to_add`). -/
def Particles.replace (P : Particles) (to_remove to_add : List ParticleData) :
    Particles :=
  to_add.foldl Particles.insert (to_remove.foldl Particles.remove P)

/-! ## The timestep action pipeline.

Source: `Experiment::run_time_evolution` (src/unnamed/part_001 lines 211-239):
candidate actions are gathered, sorted by execution time, and each one is
performed only if it is still valid against the current store.  The `Action`
base class itself (action.h) is not in src; its validity check, comparison
operator and perform step are modelled from the spec. -/

/-- A candidate timestep action: incoming handles, scheduled execution time,
and the outgoing particle list its execution will publish. -/
structure TimestepAction where
  incoming_particles : List ParticleData
  time_of_execution : ℚ
  outgoing_particles : List ParticleData

/-- Modelled from the spec: `Action::is_valid` (action.h is not in src)
re-checks that every incoming handle is still valid in the store. -/
def TimestepAction.is_valid (a : TimestepAction) (P : Particles) : Bool :=
  a.incoming_particles.all (fun p => P.is_valid p)

/-- Modelled from the spec: `Action::perform` (action.h is not in src)
mutates the store via a single `replace` of the incoming handles by the
outgoing records. -/
def TimestepAction.perform (a : TimestepAction) (P : Particles) : Particles :=
  P.replace a.incoming_particles a.outgoing_particles

/-- Modelled from the spec: the comparison used to sort the action list
(`Action::operator<`, action.h is not in src) orders by ascending execution
time. -/
def TimestepAction.lt (a b : TimestepAction) : Bool :=
  decide (a.time_of_execution < b.time_of_execution)

/-- Insert an action into a list sorted by ascending execution time. -/
def insertByTime (a : TimestepAction) :
    List TimestepAction → List TimestepAction
  | [] => [a]
  | b :: bs => if a.lt b then a :: b :: bs else b :: insertByTime a bs

/-- Deterministic comparison sort of the action list by ascending execution
time, standing in for the source's `std::sort` call (which guarantees only a
permutation sorted under `operator<`, with unspecified order among equal
keys). -/
def sortByTime : List TimestepAction → List TimestepAction
  | [] => []
  | a :: rest => insertByTime a (sortByTime rest)

/-- The per-timestep execution loop (src/unnamed/part_001 lines 226-239): for
each action in order, skip it silently unless it is valid against the current
store, else perform it.  Returns the final store and the performed actions. -/
def run_actions (P : Particles) (actions : List TimestepAction) :
    Particles × List TimestepAction :=
  actions.foldl
    (fun st a => if a.is_valid st.1 then (a.perform st.1, st.2 ++ [a]) else st)
    (P, [])

/-! ## Scatter-action resolution (src `scatteraction.cc`). -/

/-- Process-type tag (processbranch.h is not in src; the constructors are the
ones dispatched on in `scatteraction.cc`). -/
inductive ProcessType where
  | None
  | Elastic
  | TwoToOne
  | TwoToTwo
  | StringSoftSingleDiffractiveAX
  | StringSoftSingleDiffractiveXB
  | StringSoftDoubleDiffractive
  | StringSoftAnnihilation
  | StringSoftNonDiffractive
  | StringHard
deriving DecidableEq

/-- Modelled from the spec: `is_string_soft_process` (processbranch.cc is not
in src) holds for the five soft string sub-kinds. -/
def is_string_soft_process : ProcessType → Bool
  | ProcessType.StringSoftSingleDiffractiveAX => true
  | ProcessType.StringSoftSingleDiffractiveXB => true
  | ProcessType.StringSoftDoubleDiffractive => true
  | ProcessType.StringSoftAnnihilation => true
  | ProcessType.StringSoftNonDiffractive => true
  | _ => false

/-- All six string-variant process kinds (the soft ones plus `StringHard`). -/
def is_string_process (p : ProcessType) : Bool :=
  is_string_soft_process p || p == ProcessType.StringHard

/-- A weighted candidate outcome branch: process-type tag, outgoing particle
list and weight (partial cross section). -/
structure CollisionBranch where
  typ : ProcessType
  particle_list : List ParticleData
  weight : ℚ

/-- Exceptions thrown by scatter resolution (src `scatteraction.h` error
classes). -/
inductive SmashException where
  | InvalidResonanceFormation
  | InvalidScatterAction
deriving DecidableEq

/-- State of a scatter action (src `ScatterAction`): the two incoming
handles, the execution time, the accumulated candidate channels with their
total weight, and — once resolution ran — the chosen process type, its
weight, and the outgoing particle list.  `chosen_branch_weight` embeds the
source field holding the chosen branch's weight. -/
structure ScatterAction where
  in1 : ParticleData
  in2 : ParticleData
  time_of_execution : ℚ
  isotropic : Bool
  string_formation_time : ℚ
  process_type : ProcessType
  outgoing_particles : List ParticleData
  total_cross_section : ℚ
  chosen_branch_weight : ℚ
  collision_channels : List CollisionBranch

/-- Constructor `ScatterAction::ScatterAction` (src lines 32-38): stores the
incoming pair and time and zeroes the total cross section. -/
def mkScatterAction (in_part_a in_part_b : ParticleData) (time : ℚ)
    (isotropic : Bool) (string_formation_time : ℚ) : ScatterAction :=
  { in1 := in_part_a, in2 := in_part_b, time_of_execution := time,
    isotropic := isotropic, string_formation_time := string_formation_time,
    process_type := ProcessType.None, outgoing_particles := [],
    total_cross_section := 0, chosen_branch_weight := 0,
    collision_channels := [] }

/-- Modelled from the spec: `Action::add_process` (action.h is not in src)
accumulates a weighted candidate channel: the branch is appended and its
weight added to the running total. -/
def ScatterAction.add_process (A : ScatterAction) (b : CollisionBranch) :
    ScatterAction :=
  { A with collision_channels := A.collision_channels ++ [b],
           total_cross_section := A.total_cross_section + b.weight }

/-- Source `ScatterAction::add_collision` (src lines 40-42). -/
def ScatterAction.add_collision (A : ScatterAction) (b : CollisionBranch) :
    ScatterAction :=
  A.add_process b

/-- Source `ScatterAction::add_collisions` (src lines 44-47). -/
def ScatterAction.add_collisions (A : ScatterAction)
    (bs : List CollisionBranch) : ScatterAction :=
  bs.foldl ScatterAction.add_process A

/-- Source `ScatterAction::get_total_weight` (src lines 136-139): the total
cross section times the cross-section scaling factors of both incoming
particles. -/
def ScatterAction.get_total_weight (A : ScatterAction) : ℚ :=
  A.total_cross_section * A.in1.xsec_scaling_factor *
    A.in2.xsec_scaling_factor

/-- Modelled from the spec: `Action::total_momentum` (action.h is not in src)
is the sum of the incoming 4-momenta. -/
def ScatterAction.total_momentum (A : ScatterAction) : FourVector :=
  A.in1.momentum.add A.in2.momentum

/-- Modelled from the spec: `Action::total_momentum_of_outgoing_particles`
(action.h is not in src): the conserved total 4-momentum carried over to the
outgoing state, i.e. the incoming total. -/
def ScatterAction.total_momentum_of_outgoing_particles (A : ScatterAction) :
    FourVector :=
  A.total_momentum

/-- Source `ScatterAction::mandelstam_s` (src line 154). -/
def ScatterAction.mandelstam_s (A : ScatterAction) : ℝ :=
  A.total_momentum.sqr

/-- Modelled from the spec: `Action::sqrt_s` (scatteraction.h is not in src)
is the square root of the Mandelstam s of the incoming pair. -/
noncomputable def ScatterAction.sqrt_s (A : ScatterAction) : ℝ :=
  Real.sqrt A.mandelstam_s

/-- Source `ScatterAction::beta_cm` (src lines 146-148): velocity of the
center-of-momentum frame. -/
noncomputable def ScatterAction.beta_cm (A : ScatterAction) : ThreeVector :=
  A.total_momentum.velocity

/-- Modelled from the spec: `pCM_sqr_from_s` (kinematics.h is not in src):
squared center-of-mass momentum of a two-body state of masses `ma`, `mb` at
Mandelstam `s`. -/
noncomputable def pCM_sqr_from_s (s ma mb : ℝ) : ℝ :=
  (s + ma ^ 2 - mb ^ 2) ^ 2 / (4 * s) - ma ^ 2

/-- Modelled from the spec: `pCM_from_s` (kinematics.h is not in src). -/
noncomputable def pCM_from_s (s ma mb : ℝ) : ℝ :=
  Real.sqrt (pCM_sqr_from_s s ma mb)

/-- Modelled from the spec: `pCM` (kinematics.h is not in src). -/
noncomputable def pCM (srts ma mb : ℝ) : ℝ :=
  pCM_from_s (srts * srts) ma mb

/-- Modelled from the spec: `get_t_range` (kinematics.h is not in src)
computes the kinematically allowed momentum-transfer range from the incoming
and outgoing masses and the center-of-mass energy: `t` ranges over
`m1^2 + m3^2 - 2 E1 E3 ± 2 p_i p_f`. -/
noncomputable def get_t_range (srts m1 m2 m3 m4 : ℝ) : ℝ × ℝ :=
  let s := srts * srts
  let e1 := (s + m1 ^ 2 - m2 ^ 2) / (2 * srts)
  let e3 := (s + m3 ^ 2 - m4 ^ 2) / (2 * srts)
  let p_i := pCM srts m1 m2
  let p_f := pCM srts m3 m4
  (m1 ^ 2 + m3 ^ 2 - 2 * e1 * e3 - 2 * p_i * p_f,
   m1 ^ 2 + m3 ^ 2 - 2 * e1 * e3 + 2 * p_i * p_f)

/-- Spherical angles of a direction: azimuth and polar cosine (angles.h is
not in src; modelled from the spec's solid-angle conversion). -/
structure Angles where
  phi : ℝ
  costheta : ℝ

/-- Unit direction vector of a pair of spherical angles. -/
noncomputable def Angles.threevec (a : Angles) : ThreeVector :=
  let sintheta := Real.sqrt (1 - a.costheta ^ 2)
  ⟨sintheta * Real.cos a.phi, sintheta * Real.sin a.phi, a.costheta⟩

open Classical in
/-- Modelled from the spec: `ThreeVector::rotate_z_axis_to` (threevector.h is
not in src) rotates `u` by the rotation taking the z-axis to the direction of
`r` (the composition of a polar rotation about y and an azimuthal rotation
about z, with the degenerate directions mapped by the identity as `atan2`
conventions give). -/
noncomputable def ThreeVector.rotate_z_axis_to (u r : ThreeVector) :
    ThreeVector :=
  let rho := Real.sqrt r.sqr
  let rxy := Real.sqrt (r.x1 ^ 2 + r.x2 ^ 2)
  let ct := if rho = 0 then 1 else r.x3 / rho
  let st := if rho = 0 then 0 else rxy / rho
  let cp := if rxy = 0 then 1 else r.x1 / rxy
  let sp := if rxy = 0 then 0 else r.x2 / rxy
  ⟨ct * cp * u.x1 - sp * u.x2 + st * cp * u.x3,
   ct * sp * u.x1 + cp * u.x2 + st * sp * u.x3,
   -(st * u.x1) + ct * u.x3⟩

/-- The random draws consumed by one angular sampling (random.h is not in
src; randomness is threaded explicitly, as the spec's design notes demand).
`u` is the canonical draw for the azimuth, `t_draw` the sampled momentum
transfer (the distribution parameters — the Cugnon and power-law coefficients
of src lines 205-354 — shape only the distribution of this draw), `mirror`
the outcome of the symmetrization test, and `iso_u` / `iso_costheta` the
draws of the isotropic (or generator-shaped) branch. -/
structure AngleDraws where
  u : ℝ
  t_draw : ℝ
  mirror : Bool
  iso_u : ℝ
  iso_costheta : ℝ

/-- Scattering angles drawn by `ScatterAction::sample_angles` (src lines
259-358): in the anisotropic elastic case the polar cosine is formed from the
sampled momentum transfer, `1 - 2 (t - t0) / (t1 - t0)` over the allowed
range, after the optional mirroring `t -> t0 + t1 - t`; every other
non-string branch produces its angles from direct draws (the anisotropic
2-to-2 sub-cases differ only in the distribution of those draws, which lives
in the external random source). -/
noncomputable def ScatterAction.sampled_phitheta (A : ScatterAction)
    (masses : ℝ × ℝ) (kinetic_energy_cm : ℝ) (d : AngleDraws) : Angles :=
  let mass_in_a := A.in1.effective_mass
  let mass_in_b := A.in2.effective_mass
  let t_range := get_t_range kinetic_energy_cm mass_in_a mass_in_b
    masses.1 masses.2
  if (A.process_type == ProcessType.Elastic) && !A.isotropic then
    let t := if d.mirror then t_range.1 + t_range.2 - d.t_draw else d.t_draw
    ⟨2 * Real.pi * d.u,
     1 - 2 * (t - t_range.1) / (t_range.2 - t_range.1)⟩
  else
    ⟨2 * Real.pi * d.iso_u, d.iso_costheta⟩

/-- Direction `pscatt` of `ScatterAction::sample_angles` (src lines 360-364):
the drawn solid angle rotated into the frame aligned with the incoming
relative momentum in the center-of-mass frame. -/
noncomputable def ScatterAction.sampled_direction (A : ScatterAction)
    (masses : ℝ × ℝ) (kinetic_energy_cm : ℝ) (d : AngleDraws) : ThreeVector :=
  let pcm := (A.in1.momentum.lorentzBoost A.beta_cm).threevec
  (A.sampled_phitheta masses kinetic_energy_cm d).threevec.rotate_z_axis_to
    pcm

/-- Source `ScatterAction::sample_angles` (src lines 249-379): string
processes keep their generator-supplied angles; otherwise the scattering
angles are sampled, rotated into the frame of the incoming relative momentum,
and back-to-back momenta of magnitude `pCM` are assigned to the two outgoing
particles. -/
noncomputable def ScatterAction.sample_angles (A : ScatterAction)
    (masses : ℝ × ℝ) (kinetic_energy_cm : ℝ) (d : AngleDraws) :
    ScatterAction :=
  if is_string_soft_process A.process_type ||
      (A.process_type == ProcessType.StringHard) then
    A
  else
    let pscatt := A.sampled_direction masses kinetic_energy_cm d
    let p_f := pCM kinetic_energy_cm masses.1 masses.2
    { A with outgoing_particles :=
        match A.outgoing_particles with
        | pa :: pb :: rest =>
            pa.set_4momentum masses.1 (ThreeVector.smul p_f pscatt) ::
              pb.set_4momentum masses.2 (ThreeVector.smul p_f pscatt).neg ::
                rest
        | other => other }

/-- Source `ScatterAction::elastic_scattering` (src lines 381-389): copy the
incoming particles into the final state, then resample only the momenta. -/
noncomputable def ScatterAction.elastic_scattering (A : ScatterAction)
    (d : AngleDraws) : ScatterAction :=
  let A1 := { A with outgoing_particles :=
    (A.outgoing_particles.set 0 A.in1).set 1 A.in2 }
  A1.sample_angles (A.in1.effective_mass, A.in2.effective_mass) A.sqrt_s d

/-- Modelled from the spec: `Action::sample_2body_phasespace` (action.cc is
not in src) samples a two-body phase space for the outgoing masses; only the
4-momenta of the two outgoing particles change, with the sampled momenta
threaded in as the draw `ph`. -/
def ScatterAction.sample_2body_phasespace (A : ScatterAction)
    (ph : FourVector × FourVector) : ScatterAction :=
  { A with outgoing_particles :=
      match A.outgoing_particles with
      | pa :: pb :: rest =>
          pa.with_momentum ph.1 :: pb.with_momentum ph.2 :: rest
      | other => other }

/-- Source `ScatterAction::inelastic_scattering` (src lines 391-422): sample
the two-body phase space, then set the formation data of the two outgoing
particles from the incoming particle with the larger formation time whenever
one of the incoming particles is still forming at execution time, and to the
execution time otherwise. -/
def ScatterAction.inelastic_scattering (A : ScatterAction)
    (ph : FourVector × FourVector) : ScatterAction :=
  let A1 := A.sample_2body_phasespace ph
  let t0 := A.in1.formation_time
  let t1 := A.in2.formation_time
  let p_tmax := if t0 > t1 then A.in1 else A.in2
  let form_time_begin := p_tmax.begin_formation_time
  let sc := p_tmax.initial_xsec_scaling_factor
  if t0 > A.time_of_execution ∨ t1 > A.time_of_execution then
    { A1 with outgoing_particles :=
        match A1.outgoing_particles with
        | pa :: pb :: rest =>
            ((pa.set_slow_formation_times form_time_begin
                (max t0 t1)).set_cross_section_scaling_factor sc) ::
              ((pb.set_slow_formation_times form_time_begin
                  (max t0 t1)).set_cross_section_scaling_factor sc) :: rest
        | other => other }
  else
    { A1 with outgoing_particles :=
        match A1.outgoing_particles with
        | pa :: pb :: rest =>
            pa.set_formation_time A.time_of_execution ::
              pb.set_formation_time A.time_of_execution :: rest
        | other => other }

/-- Source `ScatterAction::resonance_formation` (src lines 424-460): fails
with `InvalidResonanceFormation` unless exactly one outgoing particle was
selected; otherwise puts the resonance at rest in its rest frame with energy
equal to the invariant mass of the incoming pair and applies the same
formation-time rule as the inelastic channel. -/
noncomputable def ScatterAction.resonance_formation (A : ScatterAction) :
    Except SmashException ScatterAction :=
  match A.outgoing_particles with
  | [p] =>
      let p1 := p.set_4momentum A.total_momentum_of_outgoing_particles.abs
        ThreeVector.zero
      let t0 := A.in1.formation_time
      let t1 := A.in2.formation_time
      let p_tmax := if t0 > t1 then A.in1 else A.in2
      let p2 :=
        if t0 > A.time_of_execution ∨ t1 > A.time_of_execution then
          (p1.set_slow_formation_times p_tmax.begin_formation_time
              (max t0 t1)).set_cross_section_scaling_factor
            p_tmax.initial_xsec_scaling_factor
        else
          p1.set_formation_time A.time_of_execution
      Except.ok { A with outgoing_particles := [p2] }
  | _ => Except.error SmashException.InvalidResonanceFormation

/-! ## String excitation (src lines 462-560).

The external event-generator session (`StringProcess`, processstring.h; an
external collaborator per the spec) is modelled as the per-try success
outcomes of each `next_<Variant>` entry point plus the final state delivered
after a success. -/

/-- External event-generator session: per-kind, per-try success outcome and
the final state produced on success. -/
structure StringProcess where
  next : ProcessType → Nat → Bool
  final_state : List ParticleData

/-- One iteration of the retry loop's switch (src lines 479-506): the six
string-variant process kinds call into the session; any other kind logs an
error and leaves `success = false`. -/
def string_try (sp : StringProcess) (pt : ProcessType) (n : Nat) : Bool :=
  match pt with
  | ProcessType.StringSoftSingleDiffractiveAX => sp.next pt n
  | ProcessType.StringSoftSingleDiffractiveXB => sp.next pt n
  | ProcessType.StringSoftDoubleDiffractive => sp.next pt n
  | ProcessType.StringSoftNonDiffractive => sp.next pt n
  | ProcessType.StringSoftAnnihilation => sp.next pt n
  | ProcessType.StringHard => sp.next pt n
  | _ => false

/-- The retry cap `ntry_max` (src line 476). -/
def ntry_max : Nat := 10000

/-- The retry loop (src lines 474-507): `while (!success && ntry < ntry_max)
{ ntry++; ... }`, unrolled on the number of remaining tries.  Returns the
final `(success, ntry)` pair. -/
def string_try_loop (sp : StringProcess) (pt : ProcessType) :
    Nat → Nat → Bool × Nat
  | 0, ntry => (false, ntry)
  | r + 1, ntry =>
      let n := ntry + 1
      if string_try sp pt n then (true, n) else string_try_loop sp pt r n

/-- Full run of the retry loop from `success = false`, `ntry = 0`. -/
def string_tries (sp : StringProcess) (pt : ProcessType) : Bool × Nat :=
  string_try_loop sp pt ntry_max 0

/-- Source `ScatterAction::string_excitation` (src lines 465-560): run the
bounded retry loop against the session; if the loop ends with
`ntry == ntry_max`, allocate the two outgoing slots as copies of the incoming
particles, force the process type to Elastic and re-run the elastic path;
otherwise adopt the session's final state, and — when the incoming particles
were still unformed at execution time — rescale every outgoing fragment by
the product of the later-forming incoming particle's initial scaling factor
with the fragment's own, overwriting fragment formation times that end before
the incoming one. -/
noncomputable def ScatterAction.string_excitation (A : ScatterAction)
    (sp : StringProcess) (d : AngleDraws) : ScatterAction :=
  let r := string_tries sp A.process_type
  if r.2 = ntry_max then
    let A1 := { A with outgoing_particles := [A.in1, A.in2],
                       process_type := ProcessType.Elastic }
    A1.elastic_scattering d
  else
    let fs := sp.final_state
    let tform_in := max A.in1.formation_time A.in2.formation_time
    if tform_in > A.time_of_execution then
      let fin :=
        if A.in1.formation_time > A.in2.formation_time then
          A.in1.initial_xsec_scaling_factor
        else
          A.in2.initial_xsec_scaling_factor
      { A with outgoing_particles := fs.map (fun p =>
          let p1 := p.set_cross_section_scaling_factor
            (fin * p.initial_xsec_scaling_factor)
          if tform_in > p.formation_time then
            p1.set_slow_formation_times A.time_of_execution tform_in
          else p1) }
    else
      { A with outgoing_particles := fs }

/-- Modelled from the spec: `Action::get_interaction_point` (action.h is not
in src): the production point of new particles, the middle point of the two
incoming positions. -/
noncomputable def ScatterAction.get_interaction_point (A : ScatterAction) :
    FourVector :=
  let s := A.in1.position.add A.in2.position
  ⟨s.x0 / 2, s.x1 / 2, s.x2 / 2, s.x3 / 2⟩

/-- Tail of `ScatterAction::generate_final_state` (src lines 96-104): boost
every outgoing particle back to the computational frame, and set the
positions of newly produced particles (all non-elastic processes) to the
interaction point. -/
noncomputable def ScatterAction.boost_outgoing_to_comp_frame
    (A : ScatterAction) : ScatterAction :=
  let vel := A.total_momentum_of_outgoing_particles.velocity
  let middle_point := A.get_interaction_point
  { A with outgoing_particles := A.outgoing_particles.map (fun p =>
      let p1 := p.boost_momentum vel.neg
      if A.process_type ≠ ProcessType.Elastic then
        p1.set_4position middle_point
      else p1) }

/-! ## Concrete sample data for witnesses and counterexamples. -/

/-- A concrete particle record with the given generation token and slot
index; the remaining fields are fixed simple values. -/
def mkTestParticle (i idp : Int) (idx : Nat) : ParticleData :=
  { id := i, id_process := idp, index := idx, hole := false,
    type := ⟨1⟩, momentum := ⟨1, 0, 0, 0⟩, position := FourVector.zero,
    formation_time := 0, begin_formation_time := 0,
    xsec_scaling_factor := 1, initial_xsec_scaling_factor := 1 }

/-- Concrete incoming particle for the formation-time scenarios: formation
time 5, begin time 2, scaling factor 1/4, initial scaling factor 1/3. -/
def c3pA : ParticleData :=
  { mkTestParticle 0 0 0 with
      formation_time := 5, begin_formation_time := 2,
      xsec_scaling_factor := 1/4, initial_xsec_scaling_factor := 1/3 }

/-- Concrete incoming particle for the formation-time scenarios: formation
time 3, begin time 1, scaling factor 1/5, initial scaling factor 1/7. -/
def c3pB : ParticleData :=
  { mkTestParticle 1 0 1 with
      formation_time := 3, begin_formation_time := 1,
      xsec_scaling_factor := 1/5, initial_xsec_scaling_factor := 1/7 }

/-- Concrete 2-to-2 inelastic resolution input executing at time 4. -/
def c3In : ScatterAction :=
  { mkScatterAction c3pA c3pB 4 false 1 with
      process_type := ProcessType.TwoToTwo,
      outgoing_particles := [mkTestParticle 10 1 0, mkTestParticle 11 1 1] }

/-- Concrete 2-to-1 resonance-formation input executing at time 4. -/
def c3ResIn : ScatterAction :=
  { mkScatterAction c3pA c3pB 4 false 1 with
      process_type := ProcessType.TwoToOne,
      outgoing_particles := [mkTestParticle 12 1 0] }

/-- Result state of the concrete 2-to-1 resolution. -/
noncomputable def c3ResOut : ScatterAction :=
  c3ResIn.resonance_formation.toOption.getD c3ResIn

/-- Concrete 2-to-1 resolution input with both incoming particles already
formed at the execution time. -/
def resWIn : ScatterAction :=
  { mkScatterAction (mkTestParticle 0 0 0) (mkTestParticle 1 0 1) 0 false 1 with
      process_type := ProcessType.TwoToOne,
      outgoing_particles := [mkTestParticle 2 1 0] }

/-- Result state of that concrete 2-to-1 resolution. -/
noncomputable def resWOut : ScatterAction :=
  resWIn.resonance_formation.toOption.getD resWIn

/-- Angular draws fixed to zero (any value works for the string scenarios,
whose claims do not constrain the resampled momenta). -/
def dZero : AngleDraws := ⟨0, 0, false, 0, 0⟩

/-- An event-generator session that fails on every call. -/
def allFailProcess : StringProcess := ⟨fun _ _ => false, []⟩

/-- A string fragment with current and initial scaling factor 1/2. -/
def c2Frag : ParticleData :=
  { mkTestParticle 20 2 0 with
      xsec_scaling_factor := 1/2, initial_xsec_scaling_factor := 1/2 }

/-- An event-generator session that succeeds only on the very last allowed
try (the 10000th). -/
def lastTrySuccessProcess : StringProcess :=
  ⟨fun _ n => n == 10000, [c2Frag]⟩

/-- An event-generator session that succeeds on the first try. -/
def firstTrySuccessProcess : StringProcess :=
  ⟨fun _ n => n == 1, [c2Frag]⟩

/-- A concrete string-variant scatter action (double diffractive). -/
def c1In : ScatterAction :=
  { mkScatterAction (mkTestParticle 0 0 0) (mkTestParticle 1 0 1) 0 false 1
      with process_type := ProcessType.StringSoftDoubleDiffractive }

/-- An already-formed incoming particle with scaling factor 1/3. -/
def c2pIn : ParticleData :=
  { mkTestParticle 0 0 0 with
      xsec_scaling_factor := 1/3, initial_xsec_scaling_factor := 1/3 }

/-- A string-variant scatter action whose incoming particles are both formed
at the execution time. -/
def c2FormedIn : ScatterAction :=
  { mkScatterAction c2pIn { c2pIn with id := 1, index := 1 } 0 false 1
      with process_type := ProcessType.StringSoftDoubleDiffractive }

/-- A string-variant scatter action whose incoming particles are still
forming at the execution time (formation times 5 and 3, execution time 4). -/
def c2UnformedIn : ScatterAction :=
  { mkScatterAction c3pA c3pB 4 false 1
      with process_type := ProcessType.StringSoftDoubleDiffractive }

/-- A concrete store holding two particles with identities 0 and 1. -/
def wStore : Particles :=
  ⟨[mkTestParticle 0 0 0, mkTestParticle 1 0 1], 1, []⟩

/-- A concrete action at time 1 consuming the particle in slot 0. -/
def wA1 : TimestepAction :=
  ⟨[mkTestParticle 0 0 0], 1, [mkTestParticle (-1) 7 0]⟩

/-- A concrete action at time 2 sharing the incoming particle of `wA1`. -/
def wA2 : TimestepAction :=
  ⟨[mkTestParticle 0 0 0], 2, []⟩

/-- A concrete elastic scatter action: two particles of mass 1 at rest. -/
def c9In : ScatterAction :=
  { mkScatterAction (mkTestParticle 0 0 0) (mkTestParticle 1 0 1) 0 false 1
      with
      process_type := ProcessType.Elastic,
      outgoing_particles := [mkTestParticle 10 1 0, mkTestParticle 11 1 1] }

/-! ## Theorems.

First the store claims, then the channel-weight bookkeeping, then the
resolution state machine, the string retry loop, the pipeline, and finally
elastic momentum conservation. -/

/-- C5: for every particle-data copy, the store's `is_valid` check returns
true if and only if the slot at the copy's stored index currently holds a
record with the same identity and the same creating-action identifier; the
check is total, and returns false (rather than faulting) whenever the copy's
slot index lies at or beyond the store's used range. -/
theorem C5_is_valid_generation_token (P : Particles) (c : ParticleData) :
    (P.is_valid c = true ↔
      c.index < P.data.length ∧
      (P.data.getD c.index c).id = c.id ∧
      (P.data.getD c.index c).id_process = c.id_process) ∧
    (P.data.length ≤ c.index → P.is_valid c = false) := by
  unfold Particles.is_valid
  by_cases h : P.data.length ≤ c.index
  · simp only [if_pos h]
    constructor
    · constructor
      · intro hfalse
        exact absurd hfalse (by simp)
      · intro hc
        omega
    · intro _
      trivial
  · simp only [if_neg h]
    constructor
    · simp only [Bool.and_eq_true, beq_iff_eq]
      constructor
      · intro hc
        exact ⟨Nat.lt_of_not_le h, hc.1, hc.2⟩
      · intro hc
        exact ⟨hc.2.1, hc.2.2⟩
    · intro hc
      exact absurd hc h

/-- Witness for C5 at a concrete out-of-range copy: the check returns false
instead of faulting. -/
theorem C5_is_valid_generation_token_witness :
    Particles.is_valid ⟨[], -1, []⟩ (mkTestParticle 0 0 0) = false :=
  (C5_is_valid_generation_token ⟨[], -1, []⟩ (mkTestParticle 0 0 0)).2
    (by decide)

/-- Helper: the running minimum of a list of naturals is one of its elements
or the seed. -/
theorem foldl_min_mem (t : List Nat) : ∀ h : Nat, t.foldl Nat.min h ∈ h :: t := by
  induction t with
  | nil => intro h; simp
  | cons x t' ih =>
      intro h
      have hmem := ih (Nat.min h x)
      simp only [List.foldl_cons]
      rcases List.mem_cons.mp hmem with h1 | h1
      · rw [h1]
        by_cases hx : h ≤ x
        · simp [Nat.min_def, hx]
        · simp [Nat.min_def, hx]
      · exact List.mem_cons_of_mem _ (List.mem_cons_of_mem _ h1)

/-- Helper: under the store invariant that holes are slots, the insertion
target of a store with holes lies inside the used range. -/
theorem insert_index_lt (P : Particles)
    (hwf : ∀ k ∈ P.dirty, k < P.data.length) (hne : P.dirty ≠ []) :
    P.insert_index < P.data.length := by
  cases hd : P.dirty with
  | nil => exact absurd hd hne
  | cons h t =>
      apply hwf
      simp only [Particles.insert_index, hd]
      exact foldl_min_mem t h

/-- C10 counterexample: when the argument of `insert` was already a valid
copy of another particle still in the store, it stays valid after the
insertion — `is_valid` checks the copy's own slot, which the insertion does
not touch.  The claim's universally quantified "returns false" is refuted. -/
theorem C10_counterexample :
    ((Particles.mk [mkTestParticle 0 5 0] 0 []).insert
        (mkTestParticle 0 5 0)).is_valid (mkTestParticle 0 5 0) = true := by
  rfl

/-- C10 amended: insertion copies the record into a slot but assigns the
stored copy a fresh identity (the pre-insert `id_max + 1`); consequently the
argument is never a valid handle of the newly stored particle: whenever the
argument's identity does not exceed the pre-insert `id_max` and its slot
index points at the insertion target, `is_valid` on the post-insert store
returns false.  (If the argument was a valid copy of a *different* stored
particle, it simply remains one.) -/
theorem C10_amended (P : Particles) (p : ParticleData)
    (hwf : ∀ k ∈ P.dirty, k < P.data.length) :
    ((P.insert p).data.getD P.insert_index p).id = P.id_max + 1 ∧
    (p.id ≤ P.id_max → p.index = P.insert_index →
      (P.insert p).is_valid p = false) := by
  cases hd : P.dirty with
  | nil =>
      have hidx : P.insert_index = P.data.length := by
        simp [Particles.insert_index, hd]
      constructor
      · simp only [Particles.insert, hd, hidx]
        rw [List.getD_eq_getElem?_getD, List.getElem?_concat_length]
        rfl
      · intro hle hpidx
        have hplen : p.index = P.data.length := by rw [hpidx, hidx]
        simp only [Particles.insert, hd, Particles.is_valid]
        rw [if_neg (by simp [hplen])]
        rw [hplen, List.getD_eq_getElem?_getD, List.getElem?_concat_length]
        simp only [Option.getD_some]
        have hne : (P.id_max + 1 == p.id) = false := by
          simp only [beq_eq_false_iff_ne, ne_eq]
          omega
        rw [hne, Bool.false_and]
  | cons h t =>
      have hlt : P.insert_index < P.data.length := by
        apply insert_index_lt P hwf
        rw [hd]
        simp
      constructor
      · simp only [Particles.insert, hd]
        rw [List.getD_eq_getElem?_getD]
        rw [List.getElem?_set_self (by simpa using hlt)]
        rfl
      · intro hle hpidx
        simp only [Particles.insert, hd, Particles.is_valid]
        rw [if_neg (by simp; omega)]
        rw [List.getD_eq_getElem?_getD]
        rw [hpidx, List.getElem?_set_self (by simpa using hlt)]
        simp only [Option.getD_some]
        have hne : (P.id_max + 1 == p.id) = false := by
          simp only [beq_eq_false_iff_ne, ne_eq]
          omega
        rw [hne, Bool.false_and]

/-- Witness for C10 amended: a fresh record inserted into an empty store is
not a valid copy of the stored particle. -/
theorem C10_amended_witness :
    ((Particles.mk [] (-1) []).insert (mkTestParticle (-1) (-1) 0)).is_valid
        (mkTestParticle (-1) (-1) 0) = false :=
  (C10_amended ⟨[], -1, []⟩ (mkTestParticle (-1) (-1) 0)
    (by intro k hk; simp at hk)).2 (by decide) (by decide)

/-- Helper: accumulating a list of branches adds the sum of their weights to
the running total cross section and leaves the incoming pair untouched. -/
theorem add_collisions_fields (bs : List CollisionBranch) :
    ∀ A : ScatterAction,
      (A.add_collisions bs).total_cross_section
          = A.total_cross_section + (bs.map CollisionBranch.weight).sum ∧
      (A.add_collisions bs).in1 = A.in1 ∧
      (A.add_collisions bs).in2 = A.in2 := by
  induction bs with
  | nil => intro A; simp [ScatterAction.add_collisions]
  | cons b bs' ih =>
      intro A
      have hstep := ih (A.add_process b)
      simp only [ScatterAction.add_collisions, List.foldl_cons] at hstep ⊢
      refine ⟨?_, ?_, ?_⟩
      · rw [hstep.1]
        simp only [ScatterAction.add_process, List.map_cons, List.sum_cons]
        ring
      · rw [hstep.2.1]
        rfl
      · rw [hstep.2.2]
        rfl

/-- C7 counterexample: with incoming scaling factors 1/2, an action holding a
single accumulated branch of weight 1 reports total weight 1/4, not the
branch-weight sum 1; the claim fails at this input. -/
theorem C7_counterexample :
    (((mkScatterAction
          ({ mkTestParticle 0 0 0 with xsec_scaling_factor := 1/2 })
          ({ mkTestParticle 0 0 0 with xsec_scaling_factor := 1/2 })
          0 false 1).add_collision
        ⟨ProcessType.Elastic, [], 1⟩).get_total_weight = 1/4) ∧
    ((((mkScatterAction
          ({ mkTestParticle 0 0 0 with xsec_scaling_factor := 1/2 })
          ({ mkTestParticle 0 0 0 with xsec_scaling_factor := 1/2 })
          0 false 1).add_collision
        ⟨ProcessType.Elastic, [], 1⟩).collision_channels.map
          CollisionBranch.weight).sum = 1) ∧
    ((1 : ℚ)/4 ≠ 1) := by
  refine ⟨?_, ?_, by norm_num⟩
  · simp [mkScatterAction, ScatterAction.add_collision,
      ScatterAction.add_process, ScatterAction.get_total_weight]
    norm_num
  · simp [mkScatterAction, ScatterAction.add_collision,
      ScatterAction.add_process]

/-- C7 amended: after any sequence of candidate branches is accumulated onto
a freshly constructed scatter action, the action's total weight equals the
sum of the accumulated branch weights multiplied by the cross-section scaling
factors of both incoming particles. -/
theorem C7_amended (in_a in_b : ParticleData) (time : ℚ) (iso : Bool)
    (sft : ℚ) (bs : List CollisionBranch) :
    ((mkScatterAction in_a in_b time iso sft).add_collisions
        bs).get_total_weight
      = (bs.map CollisionBranch.weight).sum * in_a.xsec_scaling_factor *
          in_b.xsec_scaling_factor := by
  have h := add_collisions_fields bs (mkScatterAction in_a in_b time iso sft)
  unfold ScatterAction.get_total_weight
  rw [h.1, h.2.1, h.2.2]
  simp [mkScatterAction]

/-- Helper: the zero 3-vector has zero squared norm. -/
theorem threevector_zero_sqr : ThreeVector.zero.sqr = 0 := by
  simp [ThreeVector.sqr, ThreeVector.dot, ThreeVector.zero]

/-- C6: resolving a 2-to-1 (resonance formation) process throws
`InvalidResonanceFormation` if and only if the chosen branch's outgoing
particle list does not contain exactly one particle; when it contains exactly
one particle, no error is raised and that particle's rest-frame momentum is
set to zero, its energy being the invariant mass of the incoming pair. -/
theorem C6_resonance_formation_exactly_one (A : ScatterAction) :
    (A.resonance_formation =
        Except.error SmashException.InvalidResonanceFormation ↔
      A.outgoing_particles.length ≠ 1) ∧
    (∀ A', A.resonance_formation = Except.ok A' →
      A'.outgoing_particles.map ParticleData.momentum =
        [⟨(A.in1.momentum.add A.in2.momentum).abs, 0, 0, 0⟩]) := by
  cases hout : A.outgoing_particles with
  | nil =>
      constructor
      · simp [ScatterAction.resonance_formation, hout]
      · intro A' h
        simp [ScatterAction.resonance_formation, hout] at h
  | cons p rest =>
      cases rest with
      | nil =>
          constructor
          · simp [ScatterAction.resonance_formation, hout]
          · intro A' h
            simp only [ScatterAction.resonance_formation, hout] at h
            rw [Except.ok.injEq] at h
            subst h
            have hmom : ∀ (q : ParticleData) (b t : ℚ) (f : ℚ),
                ((q.set_slow_formation_times b
                    t).set_cross_section_scaling_factor f).momentum
                  = q.momentum := by
              intro q b t f
              rfl
            by_cases hc : A.in1.formation_time > A.time_of_execution ∨
                A.in2.formation_time > A.time_of_execution
            · simp only [if_pos hc, List.map_cons, List.map_nil, hmom]
              congr 1
              simp only [ParticleData.set_4momentum]
              rw [threevector_zero_sqr, add_zero]
              simp only [FourVector.abs]
              rw [Real.sqrt_sq
                (Real.sqrt_nonneg A.total_momentum_of_outgoing_particles.sqr)]
              rfl
            · simp only [if_neg hc, List.map_cons, List.map_nil]
              congr 1
              simp only [ParticleData.set_formation_time,
                ParticleData.set_4momentum]
              rw [threevector_zero_sqr, add_zero]
              simp only [FourVector.abs]
              rw [Real.sqrt_sq
                (Real.sqrt_nonneg A.total_momentum_of_outgoing_particles.sqr)]
              rfl
      | cons q rest' =>
          constructor
          · simp [ScatterAction.resonance_formation, hout]
          · intro A' h
            simp [ScatterAction.resonance_formation, hout] at h

/-- Witness for C6 at a concrete one-particle outgoing state: resolution
succeeds and the resonance is at rest with the pair's invariant mass. -/
theorem C6_resonance_formation_witness :
    resWIn.resonance_formation = Except.ok resWOut ∧
    resWOut.outgoing_particles.map ParticleData.momentum =
      [⟨(resWIn.in1.momentum.add resWIn.in2.momentum).abs, 0, 0, 0⟩] :=
  ⟨rfl, (C6_resonance_formation_exactly_one resWIn).2 resWOut rfl⟩

/-- C3 counterexample: with incoming formation times 5 (begin 2, initial
scaling 1/3, current scaling 1/4) and 3 (begin 1) and execution time 4, the
code hands the outgoing particles begin-time 2 — the begin time of the
later-forming particle — not the earlier of the two begin times (1), and the
initial scaling factor 1/3 of the later-forming particle, not its current
scaling factor (1/4). -/
theorem C3_counterexample :
    ((c3In.inelastic_scattering
        (FourVector.zero, FourVector.zero)).outgoing_particles.map
          ParticleData.begin_formation_time = [2, 2]) ∧
    (min c3pA.begin_formation_time c3pB.begin_formation_time = 1) ∧
    ((2 : ℚ) ≠ 1) ∧
    ((c3In.inelastic_scattering
        (FourVector.zero, FourVector.zero)).outgoing_particles.map
          ParticleData.xsec_scaling_factor = [1/3, 1/3]) ∧
    (c3pA.xsec_scaling_factor = 1/4) ∧
    ((1 : ℚ)/3 ≠ 1/4) := by
  refine ⟨?_, ?_, by norm_num, ?_, ?_, by norm_num⟩
  · rfl
  · norm_num [c3pA, c3pB, mkTestParticle]
  · rfl
  · norm_num [c3pA, mkTestParticle]

/-- C3 amended: for every 2-to-2 inelastic (and 2-to-1) resolution with
incoming formation times t0 and t1: if both are at or before the Action's
execution time, every outgoing particle receives formation time equal to the
execution time; otherwise every outgoing particle inherits the later of the
two formation times, together with the formation-interval start time and the
*initial* cross-section scaling factor of whichever incoming particle has the
later formation time (the second incoming particle on ties). -/
theorem C3_amended (A : ScatterAction) (ph : FourVector × FourVector)
    (B B' : ScatterAction)
    (hA : A.outgoing_particles.length = 2)
    (hB : B.resonance_formation = Except.ok B') :
    (¬(A.in1.formation_time > A.time_of_execution ∨
        A.in2.formation_time > A.time_of_execution) →
      (A.inelastic_scattering ph).outgoing_particles.map
          ParticleData.formation_time =
        [A.time_of_execution, A.time_of_execution]) ∧
    ((A.in1.formation_time > A.time_of_execution ∨
        A.in2.formation_time > A.time_of_execution) →
      (A.inelastic_scattering ph).outgoing_particles.map
          ParticleData.formation_time =
        [max A.in1.formation_time A.in2.formation_time,
         max A.in1.formation_time A.in2.formation_time] ∧
      (A.inelastic_scattering ph).outgoing_particles.map
          ParticleData.begin_formation_time =
        [(if A.in1.formation_time > A.in2.formation_time then A.in1
            else A.in2).begin_formation_time,
         (if A.in1.formation_time > A.in2.formation_time then A.in1
            else A.in2).begin_formation_time] ∧
      (A.inelastic_scattering ph).outgoing_particles.map
          ParticleData.xsec_scaling_factor =
        [(if A.in1.formation_time > A.in2.formation_time then A.in1
            else A.in2).initial_xsec_scaling_factor,
         (if A.in1.formation_time > A.in2.formation_time then A.in1
            else A.in2).initial_xsec_scaling_factor]) ∧
    (¬(B.in1.formation_time > B.time_of_execution ∨
        B.in2.formation_time > B.time_of_execution) →
      B'.outgoing_particles.map ParticleData.formation_time =
        [B.time_of_execution]) ∧
    ((B.in1.formation_time > B.time_of_execution ∨
        B.in2.formation_time > B.time_of_execution) →
      B'.outgoing_particles.map ParticleData.formation_time =
        [max B.in1.formation_time B.in2.formation_time] ∧
      B'.outgoing_particles.map ParticleData.begin_formation_time =
        [(if B.in1.formation_time > B.in2.formation_time then B.in1
            else B.in2).begin_formation_time] ∧
      B'.outgoing_particles.map ParticleData.xsec_scaling_factor =
        [(if B.in1.formation_time > B.in2.formation_time then B.in1
            else B.in2).initial_xsec_scaling_factor]) := by
  obtain ⟨pa, pb, houtA⟩ : ∃ pa pb, A.outgoing_particles = [pa, pb] := by
    cases h1 : A.outgoing_particles with
    | nil => rw [h1] at hA; simp at hA
    | cons x r =>
        cases h2 : r with
        | nil => rw [h1, h2] at hA; simp at hA
        | cons y r2 =>
            cases h3 : r2 with
            | nil => exact ⟨x, y, by simp [h1, h2, h3]⟩
            | cons z r3 => rw [h1, h2, h3] at hA; simp at hA
  have hinA : ∀ hc : (A.in1.formation_time > A.time_of_execution ∨
      A.in2.formation_time > A.time_of_execution),
      (A.inelastic_scattering ph).outgoing_particles =
        [((pa.with_momentum ph.1).set_slow_formation_times
            (if A.in1.formation_time > A.in2.formation_time then A.in1
              else A.in2).begin_formation_time
            (max A.in1.formation_time
              A.in2.formation_time)).set_cross_section_scaling_factor
          (if A.in1.formation_time > A.in2.formation_time then A.in1
            else A.in2).initial_xsec_scaling_factor,
         ((pb.with_momentum ph.2).set_slow_formation_times
            (if A.in1.formation_time > A.in2.formation_time then A.in1
              else A.in2).begin_formation_time
            (max A.in1.formation_time
              A.in2.formation_time)).set_cross_section_scaling_factor
          (if A.in1.formation_time > A.in2.formation_time then A.in1
            else A.in2).initial_xsec_scaling_factor] := by
    intro hc
    simp only [ScatterAction.inelastic_scattering,
      ScatterAction.sample_2body_phasespace, houtA, if_pos hc]
  have hinA' : ∀ _ : ¬(A.in1.formation_time > A.time_of_execution ∨
      A.in2.formation_time > A.time_of_execution),
      (A.inelastic_scattering ph).outgoing_particles =
        [(pa.with_momentum ph.1).set_formation_time A.time_of_execution,
         (pb.with_momentum ph.2).set_formation_time A.time_of_execution] := by
    intro hc
    simp only [ScatterAction.inelastic_scattering,
      ScatterAction.sample_2body_phasespace, houtA, if_neg hc]
  refine ⟨?_, ?_, ?_, ?_⟩
  · intro hc
    rw [hinA' hc]
    rfl
  · intro hc
    rw [hinA hc]
    exact ⟨rfl, rfl, rfl⟩
  · intro hc
    cases houtB : B.outgoing_particles with
    | nil =>
        rw [ScatterAction.resonance_formation.eq_def, houtB] at hB
        simp at hB
    | cons p r =>
        cases r with
        | nil =>
            rw [ScatterAction.resonance_formation.eq_def, houtB] at hB
            simp only [if_neg hc, Except.ok.injEq] at hB
            rw [← hB]
            rfl
        | cons q r2 =>
            rw [ScatterAction.resonance_formation.eq_def, houtB] at hB
            simp at hB
  · intro hc
    cases houtB : B.outgoing_particles with
    | nil =>
        rw [ScatterAction.resonance_formation.eq_def, houtB] at hB
        simp at hB
    | cons p r =>
        cases r with
        | nil =>
            rw [ScatterAction.resonance_formation.eq_def, houtB] at hB
            simp only [if_pos hc, Except.ok.injEq] at hB
            rw [← hB]
            exact ⟨rfl, rfl, rfl⟩
        | cons q r2 =>
            rw [ScatterAction.resonance_formation.eq_def, houtB] at hB
            simp at hB

/-- Witness for C3 amended: the spec's own example (formation times 5 with
begin 2, and 3; execution time 4) — outgoing particles of the 2-to-2 and the
2-to-1 channel receive formation time 5, begin time 2 and the initial scaling
factor 1/3 of the later-forming particle. -/
theorem C3_amended_witness :
    ((c3In.inelastic_scattering
        (FourVector.zero, FourVector.zero)).outgoing_particles.map
          ParticleData.formation_time = [5, 5]) ∧
    ((c3In.inelastic_scattering
        (FourVector.zero, FourVector.zero)).outgoing_particles.map
          ParticleData.xsec_scaling_factor = [1/3, 1/3]) ∧
    (c3ResOut.outgoing_particles.map ParticleData.formation_time = [5]) ∧
    (c3ResOut.outgoing_particles.map ParticleData.begin_formation_time
      = [2]) ∧
    (c3ResOut.outgoing_particles.map ParticleData.xsec_scaling_factor
      = [1/3]) := by
  have h := C3_amended c3In (FourVector.zero, FourVector.zero) c3ResIn
    c3ResOut rfl rfl
  have hc : c3In.in1.formation_time > c3In.time_of_execution ∨
      c3In.in2.formation_time > c3In.time_of_execution :=
    Or.inl (by norm_num [c3In, mkScatterAction, c3pA, mkTestParticle])
  have hcB : c3ResIn.in1.formation_time > c3ResIn.time_of_execution ∨
      c3ResIn.in2.formation_time > c3ResIn.time_of_execution :=
    Or.inl (by norm_num [c3ResIn, mkScatterAction, c3pA, mkTestParticle])
  obtain ⟨hf, hbg, hsf⟩ := h.2.1 hc
  obtain ⟨hf2, hbg2, hsf2⟩ := h.2.2.2 hcB
  refine ⟨?_, ?_, ?_, ?_, ?_⟩
  · rw [hf]
    norm_num [c3In, mkScatterAction, c3pA, c3pB, mkTestParticle]
  · rw [hsf]
    norm_num [c3In, mkScatterAction, c3pA, c3pB, mkTestParticle]
  · rw [hf2]
    norm_num [c3ResIn, mkScatterAction, c3pA, c3pB, mkTestParticle]
  · rw [hbg2]
    norm_num [c3ResIn, mkScatterAction, c3pA, c3pB, mkTestParticle]
  · rw [hsf2]
    norm_num [c3ResIn, mkScatterAction, c3pA, c3pB, mkTestParticle]

/-- Helper: if every try fails, the retry loop exhausts all remaining tries
and reports the full attempt count. -/
theorem string_try_loop_all_fail (sp : StringProcess) (pt : ProcessType)
    (hfail : ∀ n, string_try sp pt n = false) :
    ∀ r ntry, string_try_loop sp pt r ntry = (false, ntry + r) := by
  intro r
  induction r with
  | zero => intro n; simp [string_try_loop]
  | succ r' ih =>
      intro n
      have h1 := hfail (n + 1)
      have h2 : n + (r' + 1) = (n + 1) + r' := by omega
      simp only [string_try_loop, h1, Bool.false_eq_true, if_false, h2]
      exact ih (n + 1)

/-- Helper: if try `k` is the first successful one, the retry loop stops at
`k` with success, for any window that reaches `k`. -/
theorem string_try_loop_first_success (sp : StringProcess) (pt : ProcessType)
    (k : Nat) (hk : string_try sp pt k = true)
    (hbefore : ∀ m, m < k → string_try sp pt m = false) :
    ∀ r ntry, ntry < k → k ≤ ntry + r →
      string_try_loop sp pt r ntry = (true, k) := by
  intro r
  induction r with
  | zero => intro n h1 h2; omega
  | succ r' ih =>
      intro n h1 h2
      by_cases he : n + 1 = k
      · subst he
        simp [string_try_loop, hk]
      · have hf : string_try sp pt (n + 1) = false := hbefore _ (by omega)
        simp only [string_try_loop, hf, Bool.false_eq_true, if_false]
        exact ih (n + 1) (by omega) (by omega)

/-- Helper: `sample_angles` never changes the process type. -/
theorem sample_angles_process_type (A : ScatterAction) (m : ℝ × ℝ) (e : ℝ)
    (d : AngleDraws) :
    (A.sample_angles m e d).process_type = A.process_type := by
  unfold ScatterAction.sample_angles
  split
  · rfl
  · rfl

/-- Helper: `elastic_scattering` never changes the process type. -/
theorem elastic_scattering_process_type (A : ScatterAction) (d : AngleDraws) :
    (A.elastic_scattering d).process_type = A.process_type := by
  unfold ScatterAction.elastic_scattering
  rw [sample_angles_process_type]

/-- Helper: erasing the momentum after a `set_4momentum` is erasing the
momentum of the original record. -/
theorem set_4momentum_erased (p : ParticleData) (m : ℝ) (v : ThreeVector) :
    (p.set_4momentum m v).momentum_erased = p.momentum_erased := rfl

/-- Helper: on a two-particle outgoing state of a non-string process,
`sample_angles` assigns back-to-back momenta of magnitude `pCM` along the
sampled direction. -/
theorem sample_angles_outgoing_pair (A : ScatterAction) (m : ℝ × ℝ) (e : ℝ)
    (d : AngleDraws) (x y : ParticleData)
    (hout : A.outgoing_particles = [x, y])
    (hns : (is_string_soft_process A.process_type ||
      (A.process_type == ProcessType.StringHard)) = false) :
    (A.sample_angles m e d).outgoing_particles =
      [x.set_4momentum m.1 (ThreeVector.smul (pCM e m.1 m.2)
          (A.sampled_direction m e d)),
       y.set_4momentum m.2 (ThreeVector.smul (pCM e m.1 m.2)
          (A.sampled_direction m e d)).neg] := by
  unfold ScatterAction.sample_angles
  rw [if_neg (by simp [hns])]
  simp [hout]

/-- Helper: on an elastic action with a two-slot outgoing state, the elastic
path overwrites the slots with copies of the incoming particles and resamples
only their momenta. -/
theorem elastic_scattering_erased (A : ScatterAction) (d : AngleDraws)
    (hpt : A.process_type = ProcessType.Elastic)
    (x y : ParticleData) (hout : A.outgoing_particles = [x, y]) :
    (A.elastic_scattering d).outgoing_particles.map
        ParticleData.momentum_erased
      = [A.in1.momentum_erased, A.in2.momentum_erased] := by
  unfold ScatterAction.elastic_scattering
  rw [sample_angles_outgoing_pair _ _ _ _ A.in1 A.in2
    (by rw [hout]; rfl)
    (by rw [hpt]; rfl)]
  simp [set_4momentum_erased]

/-- C1: for a string-variant scatter resolution in which the event-generator
session fails on every try, `string_excitation` makes exactly 10000 attempts
(the loop ends unsuccessfully with `ntry = 10000`) and then produces an
Elastic outcome: the process type is forced to Elastic, the elastic path is
re-run on two freshly allocated copies of the incoming particles (so the
outgoing list equals the incoming pair up to momentum resampling), and no
error is raised — the function is total on this path. -/
theorem C1_retry_exhaustion_elastic_fallback (A : ScatterAction)
    (sp : StringProcess) (d : AngleDraws)
    (hstr : is_string_process A.process_type = true)
    (hfail : ∀ pt n, sp.next pt n = false) :
    string_tries sp A.process_type = (false, ntry_max) ∧
    A.string_excitation sp d =
      ScatterAction.elastic_scattering
        { A with outgoing_particles := [A.in1, A.in2],
                 process_type := ProcessType.Elastic } d ∧
    (A.string_excitation sp d).process_type = ProcessType.Elastic ∧
    (A.string_excitation sp d).outgoing_particles.map
        ParticleData.momentum_erased =
      [A.in1.momentum_erased, A.in2.momentum_erased] := by
  have hfail' : ∀ n, string_try sp A.process_type n = false := by
    intro n
    cases hpt : A.process_type <;> simp [string_try, hfail]
  have hloop : string_tries sp A.process_type = (false, ntry_max) := by
    unfold string_tries
    rw [string_try_loop_all_fail sp A.process_type hfail' ntry_max 0,
      Nat.zero_add]
  have heq : A.string_excitation sp d =
      ScatterAction.elastic_scattering
        { A with outgoing_particles := [A.in1, A.in2],
                 process_type := ProcessType.Elastic } d := by
    simp only [ScatterAction.string_excitation, hloop]
    rw [if_pos trivial]
  refine ⟨hloop, heq, ?_, ?_⟩
  · rw [heq, elastic_scattering_process_type]
  · rw [heq]
    exact elastic_scattering_erased _ d rfl A.in1 A.in2 rfl

/-- Witness for C1 at a concrete double-diffractive action and the session
failing on every call. -/
theorem C1_retry_exhaustion_witness :
    string_tries allFailProcess c1In.process_type = (false, ntry_max) ∧
    c1In.string_excitation allFailProcess dZero =
      ScatterAction.elastic_scattering
        { c1In with outgoing_particles := [c1In.in1, c1In.in2],
                    process_type := ProcessType.Elastic } dZero ∧
    (c1In.string_excitation allFailProcess dZero).process_type =
      ProcessType.Elastic ∧
    (c1In.string_excitation allFailProcess dZero).outgoing_particles.map
        ParticleData.momentum_erased =
      [c1In.in1.momentum_erased, c1In.in2.momentum_erased] :=
  C1_retry_exhaustion_elastic_fallback c1In allFailProcess dZero rfl
    (fun _ _ => rfl)

/-- C2 amended: for a string-variant scatter resolution in which the
event-generator session first reports success on try `k` with `k < 10000`,
the Action adopts the session's final-state particle list as its outgoing
particles (momenta as delivered); when additionally the later of the two
incoming formation times exceeds the execution time, every outgoing
fragment's cross-section scaling factor becomes the product of the
later-forming incoming particle's *initial* scaling factor with the
fragment's own initial scaling factor, and fragments forming before the
incoming formation time have their formation interval overwritten to end at
that time; when both incoming particles are already formed, the fragments are
adopted unchanged. -/
theorem C2_success_adopts_final_state (A : ScatterAction)
    (sp : StringProcess) (d : AngleDraws) (k : Nat)
    (hk1 : 1 ≤ k) (hklt : k < ntry_max)
    (hsucc : string_try sp A.process_type k = true)
    (hbefore : ∀ m, m < k → string_try sp A.process_type m = false) :
    string_tries sp A.process_type = (true, k) ∧
    (¬(max A.in1.formation_time A.in2.formation_time >
        A.time_of_execution) →
      (A.string_excitation sp d).outgoing_particles = sp.final_state) ∧
    ((max A.in1.formation_time A.in2.formation_time >
        A.time_of_execution) →
      (A.string_excitation sp d).outgoing_particles.map
          ParticleData.momentum =
        sp.final_state.map ParticleData.momentum ∧
      (A.string_excitation sp d).outgoing_particles.map
          ParticleData.xsec_scaling_factor =
        sp.final_state.map (fun p =>
          (if A.in1.formation_time > A.in2.formation_time then A.in1
            else A.in2).initial_xsec_scaling_factor *
          p.initial_xsec_scaling_factor) ∧
      (A.string_excitation sp d).outgoing_particles.map
          ParticleData.formation_time =
        sp.final_state.map (fun p =>
          if max A.in1.formation_time A.in2.formation_time >
              p.formation_time then
            max A.in1.formation_time A.in2.formation_time
          else p.formation_time)) := by
  have hloop : string_tries sp A.process_type = (true, k) := by
    unfold string_tries
    exact string_try_loop_first_success sp A.process_type k hsucc hbefore
      ntry_max 0 (by omega) (by omega)
  have hne : ¬((k : Nat) = ntry_max) := by omega
  refine ⟨hloop, ?_, ?_⟩
  · intro hc
    simp only [ScatterAction.string_excitation, hloop]
    rw [if_neg hne, if_neg hc]
  · intro hc
    simp only [ScatterAction.string_excitation, hloop]
    rw [if_neg hne, if_pos hc]
    refine ⟨?_, ?_, ?_⟩
    · simp only [List.map_map]
      apply List.map_congr_left
      intro p _
      simp only [Function.comp]
      by_cases hp : max A.in1.formation_time A.in2.formation_time >
          p.formation_time
      · rw [if_pos hp]
        rfl
      · rw [if_neg hp]
        rfl
    · simp only [List.map_map]
      apply List.map_congr_left
      intro p _
      simp only [Function.comp]
      by_cases hp : max A.in1.formation_time A.in2.formation_time >
            p.formation_time <;>
        by_cases hsel : A.in1.formation_time > A.in2.formation_time <;>
          simp [hp, hsel, ParticleData.set_slow_formation_times,
            ParticleData.set_cross_section_scaling_factor]
    · simp only [List.map_map]
      apply List.map_congr_left
      intro p _
      simp only [Function.comp]
      by_cases hp : max A.in1.formation_time A.in2.formation_time >
          p.formation_time
      · rw [if_pos hp, if_pos hp]
        rfl
      · rw [if_neg hp, if_neg hp]
        rfl

/-- C2 counterexample, two concrete scenarios: (i) a session that succeeds
only on the 10000th try — inside the cap — is nevertheless routed into the
elastic fallback (`ntry == ntry_max` also holds on a last-try success), so
the session's one-fragment final state is *not* adopted: the outgoing list
has the two elastic copies; (ii) with both incoming particles already formed
(scaling factors 1/3) and a fragment of scaling factor 1/2, the fragment's
scaling factor stays 1/2 — not the product of incoming and outgoing scaling
factors (1/6, or 1/18 with both incoming factors). -/
theorem C2_counterexample :
    ((c1In.string_excitation lastTrySuccessProcess
        dZero).outgoing_particles.length = 2) ∧
    (lastTrySuccessProcess.final_state.length = 1) ∧
    ((c1In.string_excitation lastTrySuccessProcess dZero).process_type =
      ProcessType.Elastic) ∧
    ((c2FormedIn.string_excitation firstTrySuccessProcess
        dZero).outgoing_particles.map ParticleData.xsec_scaling_factor
      = [1/2]) ∧
    (c2FormedIn.in1.xsec_scaling_factor * c2Frag.xsec_scaling_factor
      = 1/6) ∧
    ((1 : ℚ)/2 ≠ 1/6) ∧ ((1 : ℚ)/2 ≠ 1/18) := by
  have hsuccA : string_try lastTrySuccessProcess
      ProcessType.StringSoftDoubleDiffractive 10000 = true := rfl
  have hbeforeA : ∀ m, m < 10000 → string_try lastTrySuccessProcess
      ProcessType.StringSoftDoubleDiffractive m = false := by
    intro m hm
    simp [string_try, lastTrySuccessProcess]
    omega
  have hloopA : string_tries lastTrySuccessProcess c1In.process_type =
      (true, 10000) := by
    unfold string_tries
    exact string_try_loop_first_success _ _ 10000 hsuccA hbeforeA
      ntry_max 0 (by norm_num [ntry_max]) (by norm_num [ntry_max])
  have hfb : c1In.string_excitation lastTrySuccessProcess dZero =
      ScatterAction.elastic_scattering
        { c1In with outgoing_particles := [c1In.in1, c1In.in2],
                    process_type := ProcessType.Elastic } dZero := by
    simp only [ScatterAction.string_excitation, hloopA]
    have h10 : (10000 : Nat) = ntry_max := rfl
    rw [if_pos h10]
  have hsuccB : string_try firstTrySuccessProcess
      c2FormedIn.process_type 1 = true := rfl
  have hbeforeB : ∀ m, m < 1 → string_try firstTrySuccessProcess
      c2FormedIn.process_type m = false := by
    intro m hm
    have hm0 : m = 0 := by omega
    subst hm0
    rfl
  have hloopB : string_tries firstTrySuccessProcess c2FormedIn.process_type
      = (true, 1) := by
    unfold string_tries
    exact string_try_loop_first_success _ _ 1 hsuccB hbeforeB ntry_max 0
      (by norm_num [ntry_max]) (by norm_num [ntry_max])
  have hformed : ¬(max c2FormedIn.in1.formation_time
      c2FormedIn.in2.formation_time > c2FormedIn.time_of_execution) := by
    norm_num [c2FormedIn, c2pIn, mkTestParticle, mkScatterAction]
  have houtB : (c2FormedIn.string_excitation firstTrySuccessProcess
      dZero).outgoing_particles = firstTrySuccessProcess.final_state := by
    simp only [ScatterAction.string_excitation, hloopB]
    rw [if_neg (by norm_num [ntry_max]), if_neg hformed]
  refine ⟨?_, rfl, ?_, ?_, ?_, by norm_num, by norm_num⟩
  · rw [hfb]
    have h2 := elastic_scattering_erased
      { c1In with outgoing_particles := [c1In.in1, c1In.in2],
                  process_type := ProcessType.Elastic } dZero rfl
      c1In.in1 c1In.in2 rfl
    have h3 := congrArg List.length h2
    simpa using h3
  · rw [hfb, elastic_scattering_process_type]
  · rw [houtB]
    norm_num [firstTrySuccessProcess, c2Frag, mkTestParticle]
  · norm_num [c2FormedIn, c2pIn, c2Frag, mkTestParticle, mkScatterAction]

/-- Witness for C2 amended: a session succeeding on the first try against
still-forming incoming particles (formation times 5 and 3, execution time 4):
the fragment's scaling factor becomes 1/3 * 1/2 = 1/6 and its formation time
is overwritten to 5. -/
theorem C2_success_witness :
    string_tries firstTrySuccessProcess c2UnformedIn.process_type =
      (true, 1) ∧
    ((c2UnformedIn.string_excitation firstTrySuccessProcess
        dZero).outgoing_particles.map ParticleData.xsec_scaling_factor
      = [1/6]) ∧
    ((c2UnformedIn.string_excitation firstTrySuccessProcess
        dZero).outgoing_particles.map ParticleData.formation_time
      = [5]) := by
  have h := C2_success_adopts_final_state c2UnformedIn firstTrySuccessProcess
    dZero 1 (by omega) (by norm_num [ntry_max]) rfl
    (by intro m hm; rw [Nat.lt_one_iff] at hm; subst hm; rfl)
  have hc : max c2UnformedIn.in1.formation_time
      c2UnformedIn.in2.formation_time > c2UnformedIn.time_of_execution := by
    norm_num [c2UnformedIn, c3pA, c3pB, mkTestParticle, mkScatterAction]
  obtain ⟨hm, hsf, hft⟩ := h.2.2 hc
  refine ⟨h.1, ?_, ?_⟩
  · rw [hsf]
    norm_num [firstTrySuccessProcess, c2Frag, c2UnformedIn, c3pA, c3pB,
      mkTestParticle, mkScatterAction]
  · rw [hft]
    norm_num [firstTrySuccessProcess, c2Frag, c2UnformedIn, c3pA, c3pB,
      mkTestParticle, mkScatterAction]

/-- Helper: removal never changes the used range or the identity counter. -/
theorem remove_length (P : Particles) (q : ParticleData) :
    (P.remove q).data.length = P.data.length ∧
    (P.remove q).id_max = P.id_max := by
  unfold Particles.remove
  split
  · exact ⟨by simp, rfl⟩
  · exact ⟨rfl, rfl⟩

/-- Helper: bulk removal never changes the used range or the counter. -/
theorem removeAll_length (rem : List ParticleData) :
    ∀ P : Particles,
      (rem.foldl Particles.remove P).data.length = P.data.length ∧
      (rem.foldl Particles.remove P).id_max = P.id_max := by
  induction rem with
  | nil => intro P; exact ⟨rfl, rfl⟩
  | cons r rest ih =>
      intro P
      have h1 := remove_length P r
      have h2 := ih (P.remove r)
      simp only [List.foldl_cons]
      exact ⟨h2.1.trans h1.1, h2.2.trans h1.2⟩

/-- Helper: a removed slot carries the sentinel identity -1. -/
theorem remove_getD_self (P : Particles) (q : ParticleData)
    (dflt : ParticleData) (h : q.index < P.data.length) :
    ((P.remove q).data.getD q.index dflt).id = -1 := by
  unfold Particles.remove
  rw [if_pos h]
  rw [List.getD_eq_getElem?_getD, List.getElem?_modify_eq]
  cases hx : P.data[q.index]? with
  | none =>
      rw [List.getElem?_eq_none_iff] at hx
      omega
  | some x => simp [hx]

/-- Helper: removing some other record keeps a dead slot dead. -/
theorem remove_getD_other (P : Particles) (q : ParticleData) (j : Nat)
    (dflt : ParticleData) (hdead : (P.data.getD j dflt).id = -1) :
    ((P.remove q).data.getD j dflt).id = -1 := by
  unfold Particles.remove
  split
  · rw [List.getD_eq_getElem?_getD, List.getElem?_modify]
    rw [List.getD_eq_getElem?_getD] at hdead
    cases hx : P.data[j]? with
    | none => rw [hx] at hdead; simpa using hdead
    | some x =>
        rw [hx] at hdead
        simp only [Option.getD_some] at hdead
        by_cases hje : q.index = j
        · simp [hx, hje]
        · simp [hx, hje, hdead]
  · exact hdead

/-- Helper: bulk removal keeps a dead slot dead. -/
theorem removeAll_keeps_dead (rem : List ParticleData) :
    ∀ (P : Particles) (j : Nat) (dflt : ParticleData),
      (P.data.getD j dflt).id = -1 →
      ((rem.foldl Particles.remove P).data.getD j dflt).id = -1 := by
  induction rem with
  | nil => intro P j dflt h; exact h
  | cons r rest ih =>
      intro P j dflt h
      simp only [List.foldl_cons]
      exact ih (P.remove r) j dflt (remove_getD_other P r j dflt h)

/-- Helper: after removing every record of a list, the slot of any member
inside the used range is dead. -/
theorem removeAll_dead (rem : List ParticleData) :
    ∀ (P : Particles) (c dflt : ParticleData), c ∈ rem →
      c.index < P.data.length →
      ((rem.foldl Particles.remove P).data.getD c.index dflt).id = -1 := by
  induction rem with
  | nil => intro P c dflt hmem _; exact absurd hmem (by simp)
  | cons r rest ih =>
      intro P c dflt hmem hlt
      simp only [List.foldl_cons]
      rcases List.mem_cons.mp hmem with he | hm
      · subst he
        exact removeAll_keeps_dead rest (P.remove c) c.index dflt
          (remove_getD_self P c dflt hlt)
      · exact ih (P.remove r) c dflt hm
          (by rw [(remove_length P r).1]; exact hlt)

/-- Helper: insertion only grows the used range and the identity counter. -/
theorem insert_grows (Q : Particles) (p : ParticleData) :
    Q.data.length ≤ (Q.insert p).data.length ∧
    Q.id_max ≤ (Q.insert p).id_max := by
  unfold Particles.insert
  cases Q.dirty with
  | nil => exact ⟨by simp, by simp⟩
  | cons h t => exact ⟨by simp, by simp⟩

/-- Helper: an insertion leaves a slot either dead or holding an identity
above any bound that does not exceed the pre-insert counter. -/
theorem insert_dead_or_fresh (Q : Particles) (p : ParticleData) (j : Nat)
    (dflt : ParticleData) (b : Int) (hb : b ≤ Q.id_max)
    (hj : j < Q.data.length)
    (hdead : (Q.data.getD j dflt).id = -1 ∨ b < (Q.data.getD j dflt).id) :
    ((Q.insert p).data.getD j dflt).id = -1 ∨
      b < ((Q.insert p).data.getD j dflt).id := by
  unfold Particles.insert
  cases hd : Q.dirty with
  | nil =>
      simp only
      rw [List.getD_eq_getElem?_getD, List.getElem?_append_left hj]
      rw [List.getD_eq_getElem?_getD] at hdead
      exact hdead
  | cons h t =>
      by_cases hje : Q.insert_index = j
      · right
        rw [List.getD_eq_getElem?_getD, ← hje,
          List.getElem?_set_self (by rw [hje]; exact hj)]
        simp only [Option.getD_some]
        omega
      · rw [List.getD_eq_getElem?_getD, List.getElem?_set_ne hje]
        rw [List.getD_eq_getElem?_getD] at hdead
        exact hdead

/-- Helper: bulk insertion keeps a dead-or-fresh slot dead or fresh. -/
theorem insertAll_dead (add : List ParticleData) :
    ∀ (Q : Particles) (j : Nat) (dflt : ParticleData) (b : Int),
      b ≤ Q.id_max → j < Q.data.length →
      ((Q.data.getD j dflt).id = -1 ∨ b < (Q.data.getD j dflt).id) →
      j < (add.foldl Particles.insert Q).data.length ∧
      (((add.foldl Particles.insert Q).data.getD j dflt).id = -1 ∨
        b < ((add.foldl Particles.insert Q).data.getD j dflt).id) := by
  induction add with
  | nil => intro Q j dflt b _ hj hdead; exact ⟨hj, hdead⟩
  | cons a rest ih =>
      intro Q j dflt b hb hj hdead
      simp only [List.foldl_cons]
      exact ih (Q.insert a) j dflt b (hb.trans (insert_grows Q a).2)
        (lt_of_lt_of_le hj (insert_grows Q a).1)
        (insert_dead_or_fresh Q a j dflt b hb hj hdead)

/-- Helper: replacing a set of records that contains `c` invalidates `c`. -/
theorem replace_invalidates (P : Particles) (rem add : List ParticleData)
    (c : ParticleData) (hmem : c ∈ rem) (hlt : c.index < P.data.length)
    (hid0 : 0 ≤ c.id) (hidmax : c.id ≤ P.id_max) :
    (P.replace rem add).is_valid c = false := by
  unfold Particles.replace
  have hdead : ((rem.foldl Particles.remove P).data.getD c.index c).id = -1 :=
    removeAll_dead rem P c c hmem hlt
  have hQlen := (removeAll_length rem P).1
  have hQmax := (removeAll_length rem P).2
  have h := insertAll_dead add (rem.foldl Particles.remove P) c.index c c.id
    (by omega) (by omega) (Or.inl hdead)
  unfold Particles.is_valid
  rw [if_neg (by omega)]
  have hne : ((add.foldl Particles.insert
      (rem.foldl Particles.remove P)).data.getD c.index c).id ≠ c.id := by
    rcases h.2 with h1 | h1
    · omega
    · omega
  show (((add.foldl Particles.insert
      (rem.foldl Particles.remove P)).data.getD c.index c).id == c.id &&
    ((add.foldl Particles.insert
      (rem.foldl Particles.remove P)).data.getD c.index c).id_process ==
        c.id_process) = false
  rw [beq_eq_false_iff_ne.mpr hne, Bool.false_and]

/-- C4: two actions sharing one incoming particle handle, scheduled at times
t1 < t2 within the same timestep, sorted into time order and executed by the
loop: the first action executes, and the second action's validity check
against the post-execution store returns false, so the loop skips it — the
performed list is exactly the first action, and the skip is silent (the loop
is a total function; no error channel exists on this path). -/
theorem C4_time_ordered_conflict (P : Particles) (a1 a2 : TimestepAction)
    (c : ParticleData)
    (hvalid1 : a1.is_valid P = true)
    (hc1 : c ∈ a1.incoming_particles)
    (hc2 : c ∈ a2.incoming_particles)
    (hid0 : 0 ≤ c.id) (hidmax : c.id ≤ P.id_max)
    (ht : a1.time_of_execution < a2.time_of_execution) :
    sortByTime [a2, a1] = [a1, a2] ∧
    (run_actions P (sortByTime [a2, a1])).2 = [a1] ∧
    a2.is_valid (a1.perform P) = false := by
  have hv : ∀ x ∈ a1.incoming_particles, P.is_valid x = true := by
    simpa [TimestepAction.is_valid] using hvalid1
  have hcvalid : P.is_valid c = true := hv c hc1
  have hclt : c.index < P.data.length := by
    by_contra hge
    push_neg at hge
    unfold Particles.is_valid at hcvalid
    rw [if_pos hge] at hcvalid
    exact absurd hcvalid (by simp)
  have hinv : a2.is_valid (a1.perform P) = false := by
    have hrep := replace_invalidates P a1.incoming_particles
      a1.outgoing_particles c hc1 hclt hid0 hidmax
    simp only [TimestepAction.is_valid, TimestepAction.perform]
    rw [List.all_eq_false]
    exact ⟨c, hc2, by simp [hrep]⟩
  have hlt : a2.lt a1 = false := by
    simp only [TimestepAction.lt, decide_eq_false_iff_not, not_lt]
    exact le_of_lt ht
  have hsort : sortByTime [a2, a1] = [a1, a2] := by
    simp [sortByTime, insertByTime, hlt]
  refine ⟨hsort, ?_, hinv⟩
  rw [hsort]
  simp only [run_actions, List.foldl_cons, List.foldl_nil]
  simp [hvalid1, hinv]

/-- Witness for C4: in a two-particle store, the action at time 1 consuming
slot 0 runs; the action at time 2 sharing that handle is rejected. -/
theorem C4_time_ordered_conflict_witness :
    sortByTime [wA2, wA1] = [wA1, wA2] ∧
    (run_actions wStore (sortByTime [wA2, wA1])).2 = [wA1] ∧
    wA2.is_valid (wA1.perform wStore) = false :=
  C4_time_ordered_conflict wStore wA1 wA2 (mkTestParticle 0 0 0) rfl
    (by simp [wA1]) (by simp [wA2]) (by norm_num [mkTestParticle])
    (by norm_num [mkTestParticle, wStore]) (by norm_num [wA1, wA2])

/-- Helper: the squared norm of a scalar multiple. -/
theorem threevector_smul_sqr (c : ℝ) (v : ThreeVector) :
    (ThreeVector.smul c v).sqr = c ^ 2 * v.sqr := by
  simp only [ThreeVector.smul, ThreeVector.sqr, ThreeVector.dot]
  ring

/-- Helper: a unit direction vector from spherical angles with a polar
cosine in [-1, 1]. -/
theorem angles_threevec_sqr (a : Angles) (h : a.costheta ^ 2 ≤ 1) :
    a.threevec.sqr = 1 := by
  have hst : Real.sqrt (1 - a.costheta ^ 2) ^ 2 = 1 - a.costheta ^ 2 :=
    Real.sq_sqrt (by linarith)
  simp only [Angles.threevec, ThreeVector.sqr, ThreeVector.dot]
  have hsc : Real.cos a.phi ^ 2 + Real.sin a.phi ^ 2 = 1 :=
    Real.cos_sq_add_sin_sq a.phi
  nlinarith [hst, hsc]

/-- Helper: a rotation assembled from two cosine/sine pairs preserves the
squared norm. -/
theorem rot_apply_sqr (ct st cp sp : ℝ) (hcs : ct ^ 2 + st ^ 2 = 1)
    (hps : cp ^ 2 + sp ^ 2 = 1) (u : ThreeVector) :
    ThreeVector.sqr ⟨ct * cp * u.x1 - sp * u.x2 + st * cp * u.x3,
      ct * sp * u.x1 + cp * u.x2 + st * sp * u.x3,
      -(st * u.x1) + ct * u.x3⟩ = u.sqr := by
  simp only [ThreeVector.sqr, ThreeVector.dot]
  linear_combination (u.x1 * u.x1 + u.x3 * u.x3) * hcs +
    (ct ^ 2 * u.x1 * u.x1 + u.x2 * u.x2 + st ^ 2 * u.x3 * u.x3 +
      2 * ct * st * u.x1 * u.x3) * hps

/-- Helper: rotating a vector into the frame of any target direction
preserves its squared norm. -/
theorem rotate_z_axis_to_sqr (u r : ThreeVector) :
    (u.rotate_z_axis_to r).sqr = u.sqr := by
  have hsqr : (0 : ℝ) ≤ r.sqr := by
    simp only [ThreeVector.sqr, ThreeVector.dot]
    nlinarith [sq_nonneg r.x1, sq_nonneg r.x2, sq_nonneg r.x3]
  have hxy : (0 : ℝ) ≤ r.x1 ^ 2 + r.x2 ^ 2 := by positivity
  have hnum : r.x3 ^ 2 + (r.x1 ^ 2 + r.x2 ^ 2) = r.sqr := by
    simp only [ThreeVector.sqr, ThreeVector.dot]
    ring
  unfold ThreeVector.rotate_z_axis_to
  by_cases hrho : Real.sqrt r.sqr = 0
  · by_cases hrxy : Real.sqrt (r.x1 ^ 2 + r.x2 ^ 2) = 0
    · simp only [if_pos hrho, if_pos hrxy]
      exact rot_apply_sqr 1 0 1 0 (by norm_num) (by norm_num) u
    · have hxy_ne : r.x1 ^ 2 + r.x2 ^ 2 ≠ 0 := by
        intro h
        exact hrxy (by rw [h]; exact Real.sqrt_zero)
      simp only [if_pos hrho, if_neg hrxy]
      refine rot_apply_sqr 1 0 _ _ (by norm_num) ?_ u
      field_simp
  · have hsqr_ne : r.sqr ≠ 0 := by
      intro h
      exact hrho (by rw [h]; exact Real.sqrt_zero)
    by_cases hrxy : Real.sqrt (r.x1 ^ 2 + r.x2 ^ 2) = 0
    · simp only [if_neg hrho, if_pos hrxy]
      refine rot_apply_sqr _ _ 1 0 ?_ (by norm_num) u
      field_simp
      linear_combination hnum
    · have hxy_ne : r.x1 ^ 2 + r.x2 ^ 2 ≠ 0 := by
        intro h
        exact hrxy (by rw [h]; exact Real.sqrt_zero)
      simp only [if_neg hrho, if_neg hrxy]
      refine rot_apply_sqr _ _ _ _ ?_ ?_ u
      · field_simp
        linear_combination hnum
      · field_simp

/-- Helper: square roots of the form `sqrt (y^2 / (4 s))`. -/
theorem sqrt_sq_div_four (y s : ℝ) (hy : 0 ≤ y) (hs : 0 < s) :
    Real.sqrt (y ^ 2 / (4 * s)) = y / (2 * Real.sqrt s) := by
  rw [Real.sqrt_div (sq_nonneg y), Real.sqrt_sq hy]
  rw [show (4 : ℝ) * s = 2 ^ 2 * s by norm_num]
  rw [Real.sqrt_mul (by norm_num : (0 : ℝ) ≤ 2 ^ 2)]
  rw [Real.sqrt_sq (by norm_num : (0 : ℝ) ≤ 2)]

/-- Helper: the squared center-of-mass momentum is nonnegative above
threshold. -/
theorem pCM_sqr_from_s_nonneg (s mA mB : ℝ) (hs : 0 < s) (hmA : 0 ≤ mA)
    (hmB : 0 ≤ mB) (hth : (mA + mB) ^ 2 ≤ s) :
    0 ≤ pCM_sqr_from_s s mA mB := by
  have hid : pCM_sqr_from_s s mA mB =
      (s - (mA + mB) ^ 2) * (s - (mA - mB) ^ 2) / (4 * s) := by
    unfold pCM_sqr_from_s
    field_simp
    ring
  rw [hid]
  apply div_nonneg
  · apply mul_nonneg
    · linarith
    · nlinarith [mul_nonneg hmA hmB]
  · linarith

/-- Helper: the on-shell energies of a two-body state of invariant mass
`sqrt s`. -/
theorem energy_eval (s mA mB : ℝ) (hs : 0 < s) (hmA : 0 ≤ mA) (hmB : 0 ≤ mB)
    (hth : (mA + mB) ^ 2 ≤ s) :
    Real.sqrt (mA ^ 2 + pCM_sqr_from_s s mA mB)
        = (s + mA ^ 2 - mB ^ 2) / (2 * Real.sqrt s) ∧
    Real.sqrt (mB ^ 2 + pCM_sqr_from_s s mA mB)
        = (s + mB ^ 2 - mA ^ 2) / (2 * Real.sqrt s) := by
  have h1 : mA ^ 2 + pCM_sqr_from_s s mA mB =
      (s + mA ^ 2 - mB ^ 2) ^ 2 / (4 * s) := by
    unfold pCM_sqr_from_s
    field_simp
    ring
  have h2 : mB ^ 2 + pCM_sqr_from_s s mA mB =
      (s + mB ^ 2 - mA ^ 2) ^ 2 / (4 * s) := by
    unfold pCM_sqr_from_s
    field_simp
    ring
  have hyA : 0 ≤ s + mA ^ 2 - mB ^ 2 := by nlinarith [mul_nonneg hmA hmB]
  have hyB : 0 ≤ s + mB ^ 2 - mA ^ 2 := by nlinarith [mul_nonneg hmA hmB]
  exact ⟨by rw [h1, sqrt_sq_div_four _ _ hyA hs],
         by rw [h2, sqrt_sq_div_four _ _ hyB hs]⟩

/-- Helper: the zero 4-vector is neutral for addition. -/
theorem fourvector_add_zero (p : FourVector) : p.add FourVector.zero = p := by
  cases p
  simp [FourVector.add, FourVector.zero]

/-- Helper: a Lorentz boost is additive in the boosted 4-vector. -/
theorem lorentzBoost_add (v : ThreeVector) (p q : FourVector) :
    (p.add q).lorentzBoost v =
      (p.lorentzBoost v).add (q.lorentzBoost v) := by
  simp only [FourVector.lorentzBoost, FourVector.add, FourVector.threevec,
    ThreeVector.dot, FourVector.mk.injEq]
  refine ⟨by ring, by ring, by ring, by ring⟩

/-- Helper: boosting a rest-frame 4-vector by a subluminal velocity. -/
theorem lorentzBoost_rest (E0 : ℝ) (v : ThreeVector) (hv : v.sqr < 1) :
    FourVector.lorentzBoost ⟨E0, 0, 0, 0⟩ v =
      ⟨(1 / Real.sqrt (1 - v.sqr)) * E0,
       -((1 / Real.sqrt (1 - v.sqr)) * E0 * v.x1),
       -((1 / Real.sqrt (1 - v.sqr)) * E0 * v.x2),
       -((1 / Real.sqrt (1 - v.sqr)) * E0 * v.x3)⟩ := by
  simp only [FourVector.lorentzBoost, FourVector.threevec, ThreeVector.dot,
    mul_zero, zero_mul, add_zero, zero_add, zero_div, zero_sub, if_pos hv,
    FourVector.mk.injEq]
  refine ⟨by ring, by ring, by ring, by ring⟩

/-- Helper: squared norm of the negated velocity of a 4-vector. -/
theorem velocity_neg_sqr (P : FourVector) :
    (P.velocity.neg).sqr = (P.x1 ^ 2 + P.x2 ^ 2 + P.x3 ^ 2) / P.x0 ^ 2 := by
  simp only [FourVector.velocity, FourVector.threevec, ThreeVector.smul,
    ThreeVector.neg, ThreeVector.sqr, ThreeVector.dot]
  by_cases h : P.x0 = 0
  · simp [h]
  · field_simp
    ring

/-- Helper: boosting the rest-frame total `(sqrt s, 0)` back with the
negated center-of-momentum velocity recovers the original total
4-momentum. -/
theorem boost_rest_total (P : FourVector) (hE : 0 < P.x0) (hs : 0 < P.sqr) :
    FourVector.lorentzBoost ⟨Real.sqrt P.sqr, 0, 0, 0⟩ (P.velocity.neg)
      = P := by
  have hspace : P.x1 ^ 2 + P.x2 ^ 2 + P.x3 ^ 2 < P.x0 ^ 2 := by
    have h := hs
    simp only [FourVector.sqr] at h
    nlinarith
  have hv : (P.velocity.neg).sqr < 1 := by
    rw [velocity_neg_sqr P, div_lt_one (by positivity)]
    exact hspace
  rw [lorentzBoost_rest _ _ hv]
  have h1 : 1 - (P.velocity.neg).sqr = P.sqr / P.x0 ^ 2 := by
    rw [velocity_neg_sqr P]
    simp only [FourVector.sqr]
    field_simp
    ring
  have h2 : Real.sqrt (1 - (P.velocity.neg).sqr) =
      Real.sqrt P.sqr / P.x0 := by
    rw [h1, Real.sqrt_div hs.le, Real.sqrt_sq hE.le]
  have hsp : (0 : ℝ) < Real.sqrt P.sqr := Real.sqrt_pos.mpr hs
  rw [h2]
  have hE0 : P.x0 ≠ 0 := ne_of_gt hE
  have hS0 : Real.sqrt P.sqr ≠ 0 := ne_of_gt hsp
  cases P with
  | mk E p1 p2 p3 =>
      simp only [FourVector.velocity, FourVector.threevec, ThreeVector.smul,
        ThreeVector.neg, FourVector.mk.injEq] at *
      refine ⟨?_, ?_, ?_, ?_⟩ <;> field_simp

/-- Helper: negation preserves the squared norm of a 3-vector. -/
theorem threevector_neg_sqr (v : ThreeVector) : v.neg.sqr = v.sqr := by
  simp only [ThreeVector.neg, ThreeVector.sqr, ThreeVector.dot]
  ring

/-- Helper: the polar cosine formed from a momentum transfer inside the
allowed range lies in [-1, 1] (including the degenerate range, where the
division-by-zero convention yields 1). -/
theorem costheta_formula_bounds (t0 t1 t : ℝ) (h0 : t0 ≤ t) (h1 : t ≤ t1) :
    -1 ≤ 1 - 2 * (t - t0) / (t1 - t0) ∧
    1 - 2 * (t - t0) / (t1 - t0) ≤ 1 := by
  rcases eq_or_lt_of_le (h0.trans h1) with he | hlt
  · have ht : t = t0 := le_antisymm (he ▸ h1) h0
    rw [ht, ← he]
    simp
  · have hd : 0 < t1 - t0 := by linarith
    have hr1 : 0 ≤ (t - t0) / (t1 - t0) := div_nonneg (by linarith) hd.le
    have hr2 : (t - t0) / (t1 - t0) ≤ 1 := (div_le_one hd).mpr (by linarith)
    constructor
    · have : 2 * (t - t0) / (t1 - t0) = 2 * ((t - t0) / (t1 - t0)) := by
        ring
      rw [this]
      linarith
    · have : 2 * (t - t0) / (t1 - t0) = 2 * ((t - t0) / (t1 - t0)) := by
        ring
      rw [this]
      linarith

/-- Helper: the direction sampled from in-range draws is a unit vector. -/
theorem sampled_direction_sqr (A : ScatterAction) (m : ℝ × ℝ) (e : ℝ)
    (d : AngleDraws)
    (htd : (get_t_range e A.in1.effective_mass A.in2.effective_mass
        m.1 m.2).1 ≤ d.t_draw ∧
      d.t_draw ≤ (get_t_range e A.in1.effective_mass A.in2.effective_mass
        m.1 m.2).2)
    (hiso : -1 ≤ d.iso_costheta ∧ d.iso_costheta ≤ 1) :
    (A.sampled_direction m e d).sqr = 1 := by
  unfold ScatterAction.sampled_direction
  rw [rotate_z_axis_to_sqr]
  apply angles_threevec_sqr
  unfold ScatterAction.sampled_phitheta
  split
  · simp only
    by_cases hm : d.mirror
    · simp only [hm, if_true]
      have hb := costheta_formula_bounds
        (get_t_range e A.in1.effective_mass A.in2.effective_mass m.1 m.2).1
        (get_t_range e A.in1.effective_mass A.in2.effective_mass m.1 m.2).2
        ((get_t_range e A.in1.effective_mass A.in2.effective_mass m.1
            m.2).1 +
          (get_t_range e A.in1.effective_mass A.in2.effective_mass m.1
            m.2).2 - d.t_draw)
        (by linarith [htd.2]) (by linarith [htd.1])
      nlinarith [hb.1, hb.2]
    · simp only [hm, Bool.false_eq_true, if_false]
      have hb := costheta_formula_bounds
        (get_t_range e A.in1.effective_mass A.in2.effective_mass m.1 m.2).1
        (get_t_range e A.in1.effective_mass A.in2.effective_mass m.1 m.2).2
        d.t_draw htd.1 htd.2
      nlinarith [hb.1, hb.2]
  · simp only
    nlinarith [hiso.1, hiso.2]

/-- Helper: the sampled direction does not depend on the outgoing list. -/
theorem sampled_direction_outgoing (A : ScatterAction)
    (l : List ParticleData) (m : ℝ × ℝ) (e : ℝ) (d : AngleDraws) :
    ScatterAction.sampled_direction { A with outgoing_particles := l } m e d
      = A.sampled_direction m e d := rfl

/-- Helper: `sample_angles` changes only the outgoing list. -/
theorem sample_angles_fields (A : ScatterAction) (m : ℝ × ℝ) (e : ℝ)
    (d : AngleDraws) :
    (A.sample_angles m e d).in1 = A.in1 ∧
    (A.sample_angles m e d).in2 = A.in2 := by
  unfold ScatterAction.sample_angles
  split
  · exact ⟨rfl, rfl⟩
  · exact ⟨rfl, rfl⟩

/-- Helper: `elastic_scattering` changes only the outgoing list. -/
theorem elastic_scattering_fields (A : ScatterAction) (d : AngleDraws) :
    (A.elastic_scattering d).in1 = A.in1 ∧
    (A.elastic_scattering d).in2 = A.in2 := by
  unfold ScatterAction.elastic_scattering
  exact sample_angles_fields _ _ _ _

/-- C9: for every elastic scatter resolution, the sum of the two outgoing
particles' 4-momenta after the boost back to the computational frame equals
the sum of the two incoming particles' 4-momenta — exactly, in the
real-number model of the kinematics (hence within floating-point tolerance
in the implementation). -/
theorem C9_elastic_momentum_conservation (A : ScatterAction) (d : AngleDraws)
    (x y : ParticleData)
    (hout : A.outgoing_particles = [x, y])
    (hpt : A.process_type = ProcessType.Elastic)
    (hE : 0 < A.total_momentum.x0)
    (hs : 0 < A.mandelstam_s)
    (hmA : 0 ≤ A.in1.effective_mass) (hmB : 0 ≤ A.in2.effective_mass)
    (hth : (A.in1.effective_mass + A.in2.effective_mass) ^ 2 ≤
      A.mandelstam_s)
    (htd : (get_t_range A.sqrt_s A.in1.effective_mass A.in2.effective_mass
        A.in1.effective_mass A.in2.effective_mass).1 ≤ d.t_draw ∧
      d.t_draw ≤ (get_t_range A.sqrt_s A.in1.effective_mass
        A.in2.effective_mass A.in1.effective_mass A.in2.effective_mass).2)
    (hiso : -1 ≤ d.iso_costheta ∧ d.iso_costheta ≤ 1) :
    ((ScatterAction.boost_outgoing_to_comp_frame
        (A.elastic_scattering d)).outgoing_particles.map
      ParticleData.momentum).foldr
      FourVector.add FourVector.zero = A.total_momentum := by
  have hres : (A.elastic_scattering d).outgoing_particles =
      [A.in1.set_4momentum A.in1.effective_mass
          (ThreeVector.smul
            (pCM A.sqrt_s A.in1.effective_mass A.in2.effective_mass)
            (A.sampled_direction
              (A.in1.effective_mass, A.in2.effective_mass) A.sqrt_s d)),
       A.in2.set_4momentum A.in2.effective_mass
          (ThreeVector.smul
            (pCM A.sqrt_s A.in1.effective_mass A.in2.effective_mass)
            (A.sampled_direction
              (A.in1.effective_mass, A.in2.effective_mass) A.sqrt_s
                d)).neg] := by
    unfold ScatterAction.elastic_scattering
    rw [sample_angles_outgoing_pair _ _ _ _ A.in1 A.in2
      (by rw [hout]; rfl) (by rw [hpt]; rfl)]
    rw [sampled_direction_outgoing]
  have hptB : (A.elastic_scattering d).process_type =
      ProcessType.Elastic := by
    rw [elastic_scattering_process_type, hpt]
  have hvel : (A.elastic_scattering d).total_momentum_of_outgoing_particles
      = A.total_momentum := by
    unfold ScatterAction.total_momentum_of_outgoing_particles
      ScatterAction.total_momentum
    rw [(elastic_scattering_fields A d).1, (elastic_scattering_fields A d).2]
  have hboost : (ScatterAction.boost_outgoing_to_comp_frame
        (A.elastic_scattering d)).outgoing_particles
      = (A.elastic_scattering d).outgoing_particles.map
          (fun p => p.boost_momentum
            (A.total_momentum.velocity.neg)) := by
    unfold ScatterAction.boost_outgoing_to_comp_frame
    rw [hvel]
    apply List.map_congr_left
    intro p _
    rw [if_neg (by rw [hptB]; simp)]
  have hunit : (A.sampled_direction
      (A.in1.effective_mass, A.in2.effective_mass) A.sqrt_s d).sqr = 1 :=
    sampled_direction_sqr A (A.in1.effective_mass, A.in2.effective_mass)
      A.sqrt_s d htd hiso
  have hss : A.sqrt_s * A.sqrt_s = A.mandelstam_s :=
    Real.mul_self_sqrt hs.le
  have hX : 0 ≤ pCM_sqr_from_s A.mandelstam_s A.in1.effective_mass
      A.in2.effective_mass :=
    pCM_sqr_from_s_nonneg _ _ _ hs hmA hmB hth
  have hpf2 : (pCM A.sqrt_s A.in1.effective_mass A.in2.effective_mass) ^ 2
      = pCM_sqr_from_s A.mandelstam_s A.in1.effective_mass
          A.in2.effective_mass := by
    unfold pCM pCM_from_s
    rw [hss]
    exact Real.sq_sqrt hX
  have hee := energy_eval A.mandelstam_s A.in1.effective_mass
    A.in2.effective_mass hs hmA hmB hth
  have h1 : A.in1.effective_mass ^ 2 + (ThreeVector.smul
      (pCM A.sqrt_s A.in1.effective_mass A.in2.effective_mass)
      (A.sampled_direction (A.in1.effective_mass, A.in2.effective_mass)
        A.sqrt_s d)).sqr
      = A.in1.effective_mass ^ 2 + pCM_sqr_from_s A.mandelstam_s
          A.in1.effective_mass A.in2.effective_mass := by
    rw [threevector_smul_sqr, hunit, mul_one, hpf2]
  have h2 : A.in2.effective_mass ^ 2 + ((ThreeVector.smul
      (pCM A.sqrt_s A.in1.effective_mass A.in2.effective_mass)
      (A.sampled_direction (A.in1.effective_mass, A.in2.effective_mass)
        A.sqrt_s d)).neg).sqr
      = A.in2.effective_mass ^ 2 + pCM_sqr_from_s A.mandelstam_s
          A.in1.effective_mass A.in2.effective_mass := by
    rw [threevector_neg_sqr, threevector_smul_sqr, hunit, mul_one, hpf2]
  have hsum : Real.sqrt (A.in1.effective_mass ^ 2 + (ThreeVector.smul
        (pCM A.sqrt_s A.in1.effective_mass A.in2.effective_mass)
        (A.sampled_direction (A.in1.effective_mass, A.in2.effective_mass)
          A.sqrt_s d)).sqr) +
      Real.sqrt (A.in2.effective_mass ^ 2 + ((ThreeVector.smul
        (pCM A.sqrt_s A.in1.effective_mass A.in2.effective_mass)
        (A.sampled_direction (A.in1.effective_mass, A.in2.effective_mass)
          A.sqrt_s d)).neg).sqr)
      = Real.sqrt A.mandelstam_s := by
    rw [h1, h2, hee.1, hee.2, div_add_div_same]
    rw [show A.mandelstam_s + A.in1.effective_mass ^ 2 -
        A.in2.effective_mass ^ 2 + (A.mandelstam_s +
          A.in2.effective_mass ^ 2 - A.in1.effective_mass ^ 2)
      = 2 * A.mandelstam_s by ring]
    rw [mul_div_mul_left _ _ (two_ne_zero)]
    exact Real.div_sqrt
  rw [hboost, hres]
  simp only [List.map_cons, List.map_nil, List.foldr_cons, List.foldr_nil,
    ParticleData.boost_momentum, ParticleData.set_4momentum]
  rw [fourvector_add_zero, ← lorentzBoost_add]
  have hq : FourVector.add
      ⟨Real.sqrt (A.in1.effective_mass ^ 2 + (ThreeVector.smul
          (pCM A.sqrt_s A.in1.effective_mass A.in2.effective_mass)
          (A.sampled_direction (A.in1.effective_mass, A.in2.effective_mass)
            A.sqrt_s d)).sqr),
        (ThreeVector.smul
          (pCM A.sqrt_s A.in1.effective_mass A.in2.effective_mass)
          (A.sampled_direction (A.in1.effective_mass, A.in2.effective_mass)
            A.sqrt_s d)).x1,
        (ThreeVector.smul
          (pCM A.sqrt_s A.in1.effective_mass A.in2.effective_mass)
          (A.sampled_direction (A.in1.effective_mass, A.in2.effective_mass)
            A.sqrt_s d)).x2,
        (ThreeVector.smul
          (pCM A.sqrt_s A.in1.effective_mass A.in2.effective_mass)
          (A.sampled_direction (A.in1.effective_mass, A.in2.effective_mass)
            A.sqrt_s d)).x3⟩
      ⟨Real.sqrt (A.in2.effective_mass ^ 2 + ((ThreeVector.smul
          (pCM A.sqrt_s A.in1.effective_mass A.in2.effective_mass)
          (A.sampled_direction (A.in1.effective_mass, A.in2.effective_mass)
            A.sqrt_s d)).neg).sqr),
        ((ThreeVector.smul
          (pCM A.sqrt_s A.in1.effective_mass A.in2.effective_mass)
          (A.sampled_direction (A.in1.effective_mass, A.in2.effective_mass)
            A.sqrt_s d)).neg).x1,
        ((ThreeVector.smul
          (pCM A.sqrt_s A.in1.effective_mass A.in2.effective_mass)
          (A.sampled_direction (A.in1.effective_mass, A.in2.effective_mass)
            A.sqrt_s d)).neg).x2,
        ((ThreeVector.smul
          (pCM A.sqrt_s A.in1.effective_mass A.in2.effective_mass)
          (A.sampled_direction (A.in1.effective_mass, A.in2.effective_mass)
            A.sqrt_s d)).neg).x3⟩
      = ⟨Real.sqrt A.mandelstam_s, 0, 0, 0⟩ := by
    simp only [FourVector.add, ThreeVector.neg, FourVector.mk.injEq]
    exact ⟨hsum, by ring, by ring, by ring⟩
  rw [hq]
  exact boost_rest_total A.total_momentum hE hs

/-- Helper: the square root of four. -/
theorem sqrt_four : Real.sqrt 4 = 2 := by
  rw [show (4 : ℝ) = 2 ^ 2 by norm_num]
  exact Real.sqrt_sq (by norm_num)

/-- Helper: the Mandelstam s of the concrete elastic action is 4. -/
theorem c9In_mandelstam : c9In.mandelstam_s = 4 := by
  norm_num [ScatterAction.mandelstam_s, ScatterAction.total_momentum,
    FourVector.add, FourVector.sqr, c9In, mkScatterAction, mkTestParticle]

/-- Helper: the center-of-mass energy of the concrete elastic action. -/
theorem c9In_sqrt_s : c9In.sqrt_s = 2 := by
  show Real.sqrt c9In.mandelstam_s = 2
  rw [c9In_mandelstam]
  exact sqrt_four

/-- Helper: at threshold the center-of-mass momentum vanishes. -/
theorem pCM_two_one_one : pCM 2 1 1 = 0 := by
  unfold pCM pCM_from_s pCM_sqr_from_s
  norm_num [Real.sqrt_eq_zero']

/-- Helper: the allowed momentum-transfer range of the concrete elastic
action is degenerate. -/
theorem c9In_t_range :
    get_t_range c9In.sqrt_s c9In.in1.effective_mass
      c9In.in2.effective_mass c9In.in1.effective_mass
      c9In.in2.effective_mass = (0, 0) := by
  have hm1 : c9In.in1.effective_mass = 1 := rfl
  have hm2 : c9In.in2.effective_mass = 1 := rfl
  rw [c9In_sqrt_s, hm1, hm2]
  unfold get_t_range
  rw [pCM_two_one_one]
  norm_num

/-- Witness for C9 at the concrete elastic action (two unit masses at rest)
and zero draws. -/
theorem C9_elastic_momentum_conservation_witness :
    ((ScatterAction.boost_outgoing_to_comp_frame
        (c9In.elastic_scattering dZero)).outgoing_particles.map
      ParticleData.momentum).foldr
      FourVector.add FourVector.zero = c9In.total_momentum := by
  apply C9_elastic_momentum_conservation c9In dZero
    (mkTestParticle 10 1 0) (mkTestParticle 11 1 1) rfl rfl
  · norm_num [ScatterAction.total_momentum, FourVector.add, c9In,
      mkScatterAction, mkTestParticle]
  · rw [c9In_mandelstam]
    norm_num
  · norm_num [ParticleData.effective_mass, c9In, mkScatterAction,
      mkTestParticle]
  · norm_num [ParticleData.effective_mass, c9In, mkScatterAction,
      mkTestParticle]
  · rw [c9In_mandelstam]
    norm_num [ParticleData.effective_mass, c9In, mkScatterAction,
      mkTestParticle]
  · rw [c9In_t_range]
    norm_num [dZero]
  · norm_num [dZero]
